import Mathlib

/-!
Shallow embedding of the ColorJourney core engine
(src/Sources/CColorJourney/ColorJourney.c) in Lean 4, together with
theorems settling the specification claims about it.

Modelling conventions:
* C `float`/`double` arithmetic is idealised as exact real arithmetic
  over `ℝ`; transcendental library calls (`cbrt`, `sqrtf`, `atan2f`,
  `sinf`, `cosf`, `fmodf`) become the corresponding real functions.
* The C hue-normalisation `while` loops (repeatedly adding or
  subtracting `2π`) are modelled by their mathematical fixpoints.
* `uint64_t` state (the variation PRNG) is modelled as `ℕ` with
  explicit reduction modulo `2 ^ 64`; `uint32_t` truncation is `% 2 ^ 32`.
* The opaque `CJ_Journey` handle is the structure `CJ_Journey_Impl`;
  a nullable handle is `Option CJ_Journey_Impl`.
* `malloc` failure is an environment event, passed to `cj_journey_create`
  as an explicit `allocOk` flag; `cj_journey_create` returns `none`
  exactly when allocation fails, mirroring the C `NULL` return.
-/

namespace ColorJourney

noncomputable section

open Real

/-! ## Fast math helpers (ColorJourney.c lines 80-96) -/

/-- C cast to an integer type truncates toward zero. -/
def rtrunc (x : ℝ) : ℤ := if x < 0 then ⌈x⌉ else ⌊x⌋

/-- C `fmodf`: `fmodf x y = x - y * trunc (x / y)` (sign follows `x`). -/
def fmodf (x y : ℝ) : ℝ := x - y * rtrunc (x / y)

/-- `precise_cbrt` (line 80): the real cube root, `cbrt x = x^(1/3)`
with the odd extension to negative arguments, exactly the behaviour of
the C library `cbrt`. -/
def precise_cbrt (x : ℝ) : ℝ :=
  if x < 0 then -((-x) ^ ((1 : ℝ) / 3)) else x ^ ((1 : ℝ) / 3)

/-- `clampf` (line 84). -/
def clampf (x mn mx : ℝ) : ℝ := if x < mn then mn else if x > mx then mx else x

/-- `lerpf` (line 88). -/
def lerpf (a b t : ℝ) : ℝ := a + (b - a) * t

/-- `smoothstep` (line 93): clamp to `[0,1]`, then `t*t*(3-2t)`. -/
def smoothstep (t : ℝ) : ℝ :=
  let t' := clampf t 0 1
  t' * t' * (3 - 2 * t')

/-- The hue-normalisation `while` loops
`while (h < 0) h += 2π; while (h >= 2π) h -= 2π;`
compute the unique representative of `h` in `[0, 2π)`. -/
def normHue (h : ℝ) : ℝ := h - 2 * π * ⌊h / (2 * π)⌋

/-- The one-sided loop `while (h >= 2π) h -= 2π` used in
`apply_minimum_contrast`: it only reduces values that are `≥ 2π`. -/
def wrapDown (h : ℝ) : ℝ := if h < 2 * π then h else normHue h

/-- C `atan2f y x` (quadrant-aware arctangent), with `atan2f 0 0 = 0`. -/
def atan2f (y x : ℝ) : ℝ :=
  if 0 < x then Real.arctan (y / x)
  else if x < 0 then
    (if 0 ≤ y then Real.arctan (y / x) + π else Real.arctan (y / x) - π)
  else
    (if 0 < y then π / 2 else if y < 0 then -(π / 2) else 0)

/-! ## OKLab color space (lines 121-242) -/

/-- `CJ_RGB` (linear RGB triple). -/
structure CJ_RGB where
  r : ℝ
  g : ℝ
  b : ℝ


/-- `CJ_Lab` (OKLab triple). -/
structure CJ_Lab where
  L : ℝ
  a : ℝ
  b : ℝ


/-- `CJ_LCh` (cylindrical OKLab triple). -/
structure CJ_LCh where
  L : ℝ
  C : ℝ
  h : ℝ


/-- `cj_rgb_to_oklab` (line 121): RGB → LMS → cube-root compression →
opponent encoding, with the hard-coded Ottosson coefficients. -/
def cj_rgb_to_oklab (c : CJ_RGB) : CJ_Lab :=
  let l := 0.4122214708 * c.r + 0.5363325363 * c.g + 0.0514459929 * c.b
  let m := 0.2119034982 * c.r + 0.6806995451 * c.g + 0.1073969566 * c.b
  let s := 0.0883024619 * c.r + 0.2817188376 * c.g + 0.6299787005 * c.b
  let l' := precise_cbrt l
  let m' := precise_cbrt m
  let s' := precise_cbrt s
  { L := 0.2104542553 * l' + 0.7936177850 * m' - 0.0040720468 * s'
    a := 1.9779984951 * l' - 2.4285922050 * m' + 0.4505937099 * s'
    b := 0.0259040371 * l' + 0.7827717662 * m' - 0.8086757660 * s' }

/-- `cj_oklab_to_rgb` (line 152): inverse opponent encoding → cube →
inverse cone-response matrix. May be out of gamut. -/
def cj_oklab_to_rgb (c : CJ_Lab) : CJ_RGB :=
  let l' := c.L + 0.3963377774 * c.a + 0.2158037573 * c.b
  let m' := c.L - 0.1055613458 * c.a - 0.0638541728 * c.b
  let s' := c.L - 0.0894841775 * c.a - 1.2914855480 * c.b
  let l := l' * l' * l'
  let m := m' * m' * m'
  let s := s' * s' * s'
  { r := 4.0767416621 * l - 3.3077115913 * m + 0.2309699292 * s
    g := -1.2684380046 * l + 2.6097574011 * m - 0.3413193965 * s
    b := -0.0041960863 * l - 0.7034186147 * m + 1.7076147010 * s }

/-- `cj_oklab_to_lch` (line 183): `C = √(a²+b²)`, `h = atan2 b a`
shifted into `[0, 2π)`. -/
def cj_oklab_to_lch (c : CJ_Lab) : CJ_LCh :=
  let h0 := atan2f c.b c.a
  { L := c.L
    C := Real.sqrt (c.a * c.a + c.b * c.b)
    h := if h0 < 0 then h0 + 2 * π else h0 }

/-- `cj_lch_to_oklab` (line 192). -/
def cj_lch_to_oklab (c : CJ_LCh) : CJ_Lab :=
  { L := c.L, a := c.C * Real.cos c.h, b := c.C * Real.sin c.h }

/-- `cj_delta_e` (line 200): Euclidean distance in OKLab. -/
def cj_delta_e (a b : CJ_Lab) : ℝ :=
  Real.sqrt ((a.L - b.L) * (a.L - b.L) + (a.a - b.a) * (a.a - b.a) +
    (a.b - b.b) * (a.b - b.b))

/-- `cj_rgb_clamp` (line 207). -/
def cj_rgb_clamp (c : CJ_RGB) : CJ_RGB :=
  { r := clampf c.r 0 1, g := clampf c.g 0 1, b := clampf c.b 0 1 }

/-- `cj_is_readable` (line 214). -/
def cj_is_readable (c : CJ_Lab) : Prop := 0.2 ≤ c.L ∧ c.L ≤ 0.95

/-- `cj_enforce_contrast` (line 219): single-pass L nudge then chroma
boost. (Exposed utility; the discrete palette path uses the iterative
`apply_minimum_contrast` instead.) -/
def cj_enforce_contrast (color reference : CJ_Lab) (min_delta_e : ℝ) : CJ_Lab :=
  if min_delta_e ≤ cj_delta_e color reference then color
  else
    let sign : ℝ := if 0 ≤ color.L - reference.L then 1 else -1
    let adjusted : CJ_Lab :=
      { color with L := clampf (reference.L + sign * min_delta_e * 0.7) 0 1 }
    if min_delta_e ≤ cj_delta_e adjusted reference then adjusted
    else
      let lch := cj_oklab_to_lch adjusted
      cj_lch_to_oklab { lch with C := clampf (lch.C * 1.15) 0 0.4 }

/-! ## Configuration enums (ColorJourney.h lines 119-250) -/

/-- `CJ_LightnessBias`. -/
inductive CJ_LightnessBias | neutral | lighter | darker | custom
deriving DecidableEq

/-- `CJ_ChromaBias`. -/
inductive CJ_ChromaBias | neutral | muted | vivid | custom
deriving DecidableEq

/-- `CJ_ContrastLevel`. -/
inductive CJ_ContrastLevel | low | medium | high | custom
deriving DecidableEq

/-- `CJ_TemperatureBias`. -/
inductive CJ_TemperatureBias | neutral | warm | cool
deriving DecidableEq

/-- `CJ_LoopMode`. -/
inductive CJ_LoopMode | openMode | closed | pingpong
deriving DecidableEq

/-- `CJ_VariationStrength`. -/
inductive CJ_VariationStrength | subtle | noticeable | custom
deriving DecidableEq

/-- `CJ_Config` (ColorJourney.h line 281). The C `anchors[8]` array is
modelled as a list (entries beyond `anchor_count` are never read by the
engine for valid counts `≤ 8`; reads past the list yield the zero color,
standing for the zero-initialised array). `variation_dimensions` is the
`uint32_t` bitmask (hue = 1, lightness = 2, chroma = 4);
`variation_seed` is a `uint64_t` value. -/
structure CJ_Config where
  anchors : List CJ_RGB
  anchor_count : ℤ
  lightness_bias : CJ_LightnessBias
  lightness_custom_weight : ℝ
  chroma_bias : CJ_ChromaBias
  chroma_custom_multiplier : ℝ
  contrast_level : CJ_ContrastLevel
  contrast_custom_threshold : ℝ
  mid_journey_vibrancy : ℝ
  temperature_bias : CJ_TemperatureBias
  loop_mode : CJ_LoopMode
  variation_dimensions : ℕ
  variation_strength : CJ_VariationStrength
  variation_custom_magnitude : ℝ
  variation_seed : ℕ
  variation_enabled : Bool

/-- `cj_config_init` (line 310): the zeroed-then-defaulted config. -/
def cj_config_init : CJ_Config :=
  { anchors := []
    anchor_count := 0
    lightness_bias := .neutral
    lightness_custom_weight := 0
    chroma_bias := .neutral
    chroma_custom_multiplier := 0
    contrast_level := .medium
    contrast_custom_threshold := 0
    mid_journey_vibrancy := 0.3
    temperature_bias := .neutral
    loop_mode := .openMode
    variation_dimensions := 0
    variation_strength := .subtle
    variation_custom_magnitude := 0
    variation_seed := 0x123456789ABCDEF0
    variation_enabled := false }

/-- A waypoint entry of `CJ_Journey_Impl.waypoints` (line 257). -/
structure CJ_Waypoint where
  anchor : CJ_LCh
  weight : ℝ

/-- `CJ_Journey_Impl` (line 249). -/
structure CJ_Journey_Impl where
  config : CJ_Config
  anchor_lch : List CJ_LCh
  anchor_count : ℤ
  waypoints : List CJ_Waypoint
  waypoint_count : ℤ
  rng_state : ℕ

/-! ## Variation PRNG (lines 288-304) -/

/-- The `result` value of `xoshiro_next` (line 288):
`s0 + s1` where `s0` is the low and `s1` the high 32-bit half. -/
def xoshiro_result (state : ℕ) : ℕ :=
  (state % 2 ^ 32 + state / 2 ^ 32) % 2 ^ 64

/-- The state update of `xoshiro_next` (line 288), written with
`*2^k`/`/2^k` for the C shifts and explicit `% 2^64` where a 64-bit
shift can overflow. -/
def xoshiro_step (state : ℕ) : ℕ :=
  let s0 := state % 2 ^ 32
  let s1 := state / 2 ^ 32
  let s1a := Nat.xor s1 s0
  let s0b := Nat.xor (Nat.xor (Nat.lor ((s0 * 2 ^ 24) % 2 ^ 64) (s0 / 2 ^ 8)) s1a)
      ((s1a * 2 ^ 16) % 2 ^ 64)
  let s1b := Nat.lor ((s1a * 2 ^ 37) % 2 ^ 64) (s1a / 2 ^ 27)
  Nat.lor ((s1b * 2 ^ 32) % 2 ^ 64) s0b

/-- `xoshiro_float` (line 302): `(result & 0xFFFFFF) / 16777216`,
returning the draw together with the updated state. -/
def xoshiro_float (state : ℕ) : ℝ × ℕ :=
  ((((xoshiro_result state) % 2 ^ 24 : ℕ) : ℝ) / 16777216, xoshiro_step state)

/-! ## Journey creation (lines 326-393) -/

/-- Read `config.anchors[i]` (zero-initialised array slots read as the
zero color). -/
def configAnchor (cfg : CJ_Config) (i : ℕ) : CJ_RGB :=
  cfg.anchors.getD i ⟨0, 0, 0⟩

/-- `build_waypoints` (line 326), acting on the journey record.
Single anchor: 8 shaped waypoints; otherwise the anchors' LCh values
directly. Temperature bias shifts every waypoint hue by ±0.3 and
renormalises. -/
def build_waypoints (j : CJ_Journey_Impl) : CJ_Journey_Impl :=
  let base : List CJ_Waypoint × ℤ :=
    if j.anchor_count = 1 then
      let b := j.anchor_lch.getD 0 ⟨0, 0, 0⟩
      (((List.range 8).map fun i =>
        let t : ℝ := (i : ℝ) / 7
        let hue_t := smoothstep t
        { anchor :=
            { h := b.h + hue_t * 2 * π
              C := b.C * (1 + 0.2 * Real.sin (t * π))
              L := b.L * (1 + 0.1 * Real.sin (t * 2 * π)) }
          weight := 1 }), 8)
    else
      ((j.anchor_lch.map fun a => { anchor := a, weight := 1 }),
        j.anchor_count)
  let shifted : List CJ_Waypoint :=
    if j.config.temperature_bias = .neutral then base.1
    else
      let shift : ℝ := if j.config.temperature_bias = .warm then 0.3 else -0.3
      base.1.map fun w => { w with anchor := { w.anchor with h := normHue (w.anchor.h + shift) } }
  { j with waypoints := shifted, waypoint_count := base.2 }

/-- The journey record built by a successful `cj_journey_create`
(line 375): copy the config, copy `anchor_count`, seed the RNG state
from `variation_seed`, convert the anchors to LCh, build waypoints.
No validation of any config field takes place. -/
def mkJourney (cfg : CJ_Config) : CJ_Journey_Impl :=
  build_waypoints
    { config := cfg
      anchor_lch := (List.range (cfg.anchor_count.toNat)).map fun i =>
        cj_oklab_to_lch (cj_rgb_to_oklab (configAnchor cfg i))
      anchor_count := cfg.anchor_count
      waypoints := []
      waypoint_count := 0
      rng_state := cfg.variation_seed }

/-- `cj_journey_create` (line 375): `NULL` exactly on allocation
failure (`allocOk = false`); otherwise the built journey. -/
def cj_journey_create (allocOk : Bool) (cfg : CJ_Config) : Option CJ_Journey_Impl :=
  if allocOk then some (mkJourney cfg) else none

/-! ## Sampling (lines 427-594) -/

/-- The hue-difference wrap of `interpolate_waypoints` (lines 468-470):
two sequential `if`s, subtracting `2π` when the difference exceeds `π`
and adding `2π` when it is below `-π`. -/
def hue_wrap_code (d : ℝ) : ℝ :=
  let d1 := if d > π then d - 2 * π else d
  if d1 < -π then d1 + 2 * π else d1

/-- The hue blend of `interpolate_waypoints` (lines 468-475): wrapped
difference scaled by the eased local parameter, then renormalised. -/
def hueBlend (a b lt : ℝ) : ℝ := normHue (a + hue_wrap_code (b - a) * lt)

/-- The loop-mode transform at the head of `interpolate_waypoints`
(lines 434-443): CLOSED wraps `t` into `[0,1)`, PINGPONG wraps into
`[0,2)` and mirrors the second half, OPEN leaves `t` unchanged (the
subsequent clamp handles it). -/
def loop_transform (mode : CJ_LoopMode) (t0 : ℝ) : ℝ :=
  if mode = .closed then
    let u := fmodf t0 1
    if u < 0 then u + 1 else u
  else if mode = .pingpong then
    let u := fmodf t0 2
    let u1 := if u < 0 then u + 2 else u
    if u1 > 1 then 2 - u1 else u1
  else t0

/-- `interpolate_waypoints` (line 427). -/
def interpolate_waypoints (j : CJ_Journey_Impl) (t0 : ℝ) : CJ_LCh :=
  if j.waypoint_count = 0 then ⟨0.5, 0.1, 0⟩
  else
    let t := clampf (loop_transform j.config.loop_mode t0) 0 1
    let segment_size : ℝ := 1 / ((j.waypoint_count : ℝ) - 1)
    let seg0 : ℤ := rtrunc (t / segment_size)
    let segment : ℤ :=
      if j.waypoint_count - 1 ≤ seg0 then j.waypoint_count - 2 else seg0
    let local_t := (t - (segment : ℝ) * segment_size) / segment_size
    let lt := smoothstep local_t
    let a := (j.waypoints.getD segment.toNat ⟨⟨0, 0, 0⟩, 0⟩).anchor
    let b := (j.waypoints.getD (segment.toNat + 1) ⟨⟨0, 0, 0⟩, 0⟩).anchor
    { L := lerpf a.L b.L lt, C := lerpf a.C b.C lt, h := hueBlend a.h b.h lt }

/-- `apply_dynamics` (line 481): lightness/chroma bias, mid-journey
vibrancy boost (sharp triangular peak, width 0.35, gain 0.6), final
clamps `L ∈ [0,1]`, `C ∈ [0,0.4]`. -/
def apply_dynamics (j : CJ_Journey_Impl) (c0 : CJ_LCh) (t : ℝ) : CJ_LCh :=
  let L1 : ℝ :=
    match j.config.lightness_bias with
    | .lighter => lerpf c0.L 1 0.2
    | .darker => lerpf c0.L 0 0.2
    | .custom => c0.L + j.config.lightness_custom_weight * 0.2
    | .neutral => c0.L
  let C1 : ℝ :=
    match j.config.chroma_bias with
    | .muted => c0.C * 0.6
    | .vivid => c0.C * 1.4
    | .custom => c0.C * j.config.chroma_custom_multiplier
    | .neutral => c0.C
  let mid_boost : ℝ :=
    1 + j.config.mid_journey_vibrancy * 0.6 * max 0 (1 - |t - 0.5| / 0.35)
  { L := clampf L1 0 1, C := clampf (C1 * mid_boost) 0 0.4, h := c0.h }

/-- `apply_variation` (line 544): position-keyed local PRNG state
`rng_state XOR (uint64_t)(t * 1000000)`, one draw per enabled
dimension, threaded through `xoshiro_float`. The local state is a C
local variable; `rng_state` itself is only read. -/
def apply_variation (j : CJ_Journey_Impl) (color : CJ_LCh) (t : ℝ) : CJ_LCh :=
  if j.config.variation_enabled = false then color
  else
    let st0 : ℕ := Nat.xor j.rng_state ((rtrunc (t * 1000000)).toNat % 2 ^ 64)
    let magnitude : ℝ :=
      if j.config.variation_strength = .noticeable then 0.05
      else if j.config.variation_strength = .custom then
        j.config.variation_custom_magnitude
      else 0.02
    let step1 : CJ_LCh × ℕ :=
      if Nat.land j.config.variation_dimensions 1 ≠ 0 then
        let d := xoshiro_float st0
        ({ color with h := normHue (color.h + (d.1 - 0.5) * magnitude * π) }, d.2)
      else (color, st0)
    let step2 : CJ_LCh × ℕ :=
      if Nat.land j.config.variation_dimensions 2 ≠ 0 then
        let d := xoshiro_float step1.2
        ({ step1.1 with L := clampf (step1.1.L + (d.1 - 0.5) * magnitude) 0 1 }, d.2)
      else step1
    let step3 : CJ_LCh × ℕ :=
      if Nat.land j.config.variation_dimensions 4 ≠ 0 then
        let d := xoshiro_float step2.2
        ({ step2.1 with C := clampf (step2.1.C + (d.1 - 0.5) * magnitude * 0.5) 0 0.4 }, d.2)
      else step2
    step3.1

/-- `cj_journey_sample` (line 577): interpolate, dynamics, variation,
convert to RGB, clamp. -/
def cj_journey_sample (j : CJ_Journey_Impl) (t : ℝ) : CJ_RGB :=
  cj_rgb_clamp (cj_oklab_to_rgb (cj_lch_to_oklab
    (apply_variation j (apply_dynamics j (interpolate_waypoints j t) t) t)))

/-! ## Discrete palette generation (lines 600-849) -/

/-- `discrete_min_delta_e` (line 600). -/
def discrete_min_delta_e (j : CJ_Journey_Impl) : ℝ :=
  match j.config.contrast_level with
  | .low => 0.05
  | .high => 0.15
  | .custom => j.config.contrast_custom_threshold
  | .medium => 0.1

/-- Modelled from the spec: the macro `CJ_DISCRETE_DEFAULT_SPACING` is
not defined anywhere under `src/`; the implementation comment at
ColorJourney.c line 617 ("fixed 0.05 spacing (20 positions per cycle)")
and spec §9 fix its value at `0.05`. -/
def CJ_DISCRETE_DEFAULT_SPACING : ℝ := 0.05

/-- `discrete_position_from_index` (line 625): fixed-spacing position,
`fmodf (index * 0.05) 1`, and `0` for negative indices. -/
def discrete_position_from_index (index : ℤ) : ℝ :=
  if index < 0 then 0
  else fmodf ((index : ℝ) * CJ_DISCRETE_DEFAULT_SPACING) 1

/-- `discrete_position_with_loop_mode` (line 640): count-based
loop-aware spacing used by `cj_journey_discrete`. -/
def discrete_position_with_loop_mode (j : CJ_Journey_Impl)
    (index total_count : ℤ) : ℝ :=
  if index < 0 then 0
  else if total_count ≤ 0 then 0
  else
    match j.config.loop_mode with
    | .closed => (index : ℝ) / (total_count : ℝ)
    | .pingpong =>
      let t : ℝ :=
        if 1 < total_count then (index : ℝ) / ((total_count : ℝ) - 1) else 0.5
      let t2 := t * 2
      if t2 > 1 then 2 - t2 else t2
    | .openMode =>
      if 1 < total_count then (index : ℝ) / ((total_count : ℝ) - 1) else 0.5

/-- One iteration of the `apply_minimum_contrast` refinement loop
(lines 698-738), for iteration index `iter`. The boolean records
whether this iteration exited through one of the two `break` paths
(contrast achieved). -/
def contrast_body (prev : CJ_Lab) (δ : ℝ) (curr : CJ_Lab) (iter : ℕ) :
    CJ_Lab × Bool :=
  if δ ≤ cj_delta_e curr prev then (curr, true)
  else
    let curr1 : CJ_Lab :=
      { curr with
          L := clampf (curr.L + (if prev.L < 0.5 then (1 : ℝ) else -1) *
            ((δ - cj_delta_e curr prev) * 0.5)) 0 1 }
    if δ ≤ cj_delta_e curr1 prev then (curr1, true)
    else
      let lch := cj_oklab_to_lch curr1
      (cj_lch_to_oklab
        { L := lch.L
          C := if lch.C > 0.00001 then
              min (lch.C * (1 + (δ - cj_delta_e curr1 prev) * 0.5)) 0.4
            else lch.C
          h := wrapDown (lch.h + 0.2 * (iter : ℝ)) }, false)

/-- The bounded refinement loop of `apply_minimum_contrast`
(line 698): `fuel` iterations remain, `k` is the current iteration
index (the C `iter`). The boolean is true iff the loop exited via
`break`, i.e. the threshold check succeeded. -/
def contrast_loop : ℕ → ℕ → CJ_Lab → CJ_Lab → ℝ → CJ_Lab × Bool
  | 0, _, curr, _, _ => (curr, false)
  | fuel + 1, k, curr, prev, δ =>
    match contrast_body prev δ curr k with
    | (c, true) => (c, true)
    | (c, false) => contrast_loop fuel (k + 1) c prev δ

/-- `apply_minimum_contrast` (line 688): no-op for a null `previous`;
otherwise up to 5 refinement iterations in OKLab, then conversion back
to RGB and gamut clamp. -/
def apply_minimum_contrast (color : CJ_RGB) (previous : Option CJ_RGB)
    (min_delta_e : ℝ) : CJ_RGB :=
  match previous with
  | none => color
  | some p =>
    let prev_lab := cj_rgb_to_oklab p
    let curr := cj_rgb_to_oklab color
    cj_rgb_clamp (cj_oklab_to_rgb (contrast_loop 5 0 curr prev_lab min_delta_e).1)

/-- `discrete_color_at_index` (line 744): sample at the fixed-spacing
position, then enforce contrast against the previous color. -/
def discrete_color_at_index (j : CJ_Journey_Impl) (index : ℕ)
    (previous : Option CJ_RGB) (min_delta_e : ℝ) : CJ_RGB :=
  apply_minimum_contrast
    (cj_journey_sample j (discrete_position_from_index (index : ℤ)))
    previous min_delta_e

/-- The `previous`/`has_previous` state after the replay loop
`for (i = 0; i < n; i++)` of `cj_journey_discrete_at` (line 767) and
`cj_journey_discrete_range` (line 785): `none` before any iteration. -/
def chainPrev (j : CJ_Journey_Impl) (min_delta_e : ℝ) : ℕ → Option CJ_RGB
  | 0 => none
  | n + 1 => some (discrete_color_at_index j n (chainPrev j min_delta_e n) min_delta_e)

/-- `cj_journey_discrete_at` (line 754): black for a null journey or a
negative index; otherwise replay the chained sequence from index 0. -/
def cj_journey_discrete_at (journey : Option CJ_Journey_Impl) (index : ℤ) :
    CJ_RGB :=
  match journey with
  | none => ⟨0, 0, 0⟩
  | some j =>
    if index < 0 then ⟨0, 0, 0⟩
    else
      let d := discrete_min_delta_e j
      discrete_color_at_index j index.toNat (chainPrev j d index.toNat) d

/-- The output loop of `cj_journey_discrete_range` (line 790): write
`count` chained colors starting at absolute index `idx` into buffer
positions `pos, pos+1, …`. -/
def discrete_range_loop (j : CJ_Journey_Impl) (min_delta_e : ℝ) :
    ℕ → ℕ → ℕ → Option CJ_RGB → List CJ_RGB → List CJ_RGB
  | 0, _, _, _, buf => buf
  | count + 1, idx, pos, prev, buf =>
    let c := discrete_color_at_index j idx prev min_delta_e
    discrete_range_loop j min_delta_e count (idx + 1) (pos + 1) (some c)
      (buf.set pos c)

/-- `cj_journey_discrete_range` (line 775): no-op (buffer returned
unmodified) for a null journey, `start < 0` or `count ≤ 0`; otherwise
replay to `start` and write `count` chained colors. (The C null check
on `out_colors` concerns pointer validity and is outside the model.) -/
def cj_journey_discrete_range (journey : Option CJ_Journey_Impl)
    (start count : ℤ) (buf : List CJ_RGB) : List CJ_RGB :=
  match journey with
  | none => buf
  | some j =>
    if count ≤ 0 ∨ start < 0 then buf
    else
      let d := discrete_min_delta_e j
      discrete_range_loop j d count.toNat start.toNat 0
        (chainPrev j d start.toNat) buf

/-- The generation loop of `cj_journey_discrete` (line 807): color `i`
is the loop-aware sample, contrast-enforced against the previous output
for `i > 0`. `prev` carries `out_colors[i-1]` (unused at `i = 0`). -/
def discrete_build (j : CJ_Journey_Impl) (min_delta_e : ℝ) (total : ℤ) :
    ℕ → ℕ → CJ_RGB → List CJ_RGB
  | 0, _, _ => []
  | fuel + 1, i, prev =>
    let c0 := cj_journey_sample j (discrete_position_with_loop_mode j (i : ℤ) total)
    let c := if i = 0 then c0 else apply_minimum_contrast c0 (some prev) min_delta_e
    c :: discrete_build j min_delta_e total fuel (i + 1) c

/-- The periodic chroma pulse applied per index for counts `> 20`
(lines 832-848). -/
def chroma_pulse (i : ℕ) (c : CJ_RGB) : CJ_RGB :=
  let lch := cj_oklab_to_lch (cj_rgb_to_oklab c)
  let C1 := clampf (lch.C * (1 + 0.1 * Real.cos ((i : ℝ) * π / 5))) 0 0.4
  cj_rgb_clamp (cj_oklab_to_rgb (cj_lch_to_oklab { lch with C := C1 }))

/-- Map with the element index, starting at `k`. -/
def mapWithIndex {α β : Type} (f : ℕ → α → β) : ℕ → List α → List β
  | _, [] => []
  | k, a :: as => f k a :: mapWithIndex f (k + 1) as

/-- `cj_journey_discrete` (line 798): nothing for `count ≤ 0`;
otherwise the chained loop-aware palette, with the periodic chroma
pulse applied afterwards when `count > 20`. -/
def cj_journey_discrete (j : CJ_Journey_Impl) (count : ℤ) : List CJ_RGB :=
  if count ≤ 0 then []
  else
    let d := discrete_min_delta_e j
    let base := discrete_build j d count count.toNat 0 ⟨0, 0, 0⟩
    if 20 < count then mapWithIndex chroma_pulse 0 base else base

/-! ## Call traces

The read-only API calls available on a constructed journey, and the
result of running a sequence of them.  Every C function body above
assigns only to function-local variables — the journey pointer is
dereferenced for reads only — so the journey after a call is the
journey before it; `stepCall` records exactly that post-state. -/

/-- One read-only API call on a journey handle. -/
inductive APICall
  | sampleCall (t : ℝ)
  | discreteCall (n : ℤ)
  | discreteAtCall (i : ℤ)
  | discreteRangeCall (s c : ℤ) (buf : List CJ_RGB)

/-- The colors a call returns (a single sample is a one-element list;
a range call returns the final buffer). -/
def callOutput (j : CJ_Journey_Impl) : APICall → List CJ_RGB
  | .sampleCall t => [cj_journey_sample j t]
  | .discreteCall n => cj_journey_discrete j n
  | .discreteAtCall i => [cj_journey_discrete_at (some j) i]
  | .discreteRangeCall s c buf => cj_journey_discrete_range (some j) s c buf

/-- Output and post-state of one call: no C function writes through the
journey pointer, so the post-state is the pre-state. -/
def stepCall (j : CJ_Journey_Impl) (c : APICall) : List CJ_RGB × CJ_Journey_Impl :=
  (callOutput j c, j)

/-- Run a sequence of API calls, threading the journey state. -/
def runTrace (j : CJ_Journey_Impl) : List APICall → List (List CJ_RGB) × CJ_Journey_Impl
  | [] => ([], j)
  | c :: cs =>
    let s := stepCall j c
    let r := runTrace s.2 cs
    (s.1 :: r.1, r.2)

/-! ## Definitions taken from the spec's words (for refinement claims) -/

/-- Modelled from the spec (§4.3, claim C6): wrap a hue difference into
the half-open interval `(-π, π]`. -/
def hue_wrap_spec (d : ℝ) : ℝ := d - 2 * π * ⌈(d - π) / (2 * π)⌉

/-- Modelled from the spec: the hue blend with the spec's `(-π, π]`
wrap, in place of the code's wrap. -/
def hueBlendSpec (a b lt : ℝ) : ℝ := normHue (a + hue_wrap_spec (b - a) * lt)

/-! ## Concrete inputs

`anchorChroma` is an in-gamut RGB color crafted so that the whole
pipeline of `cj_journey_create` evaluates in closed form: its LMS image
is the componentwise cube `(0.6³, (19439773037/39138588310)³, 0.5³)`,
so the cube roots are rational, and its OKLab `b` component is exactly
`0`, so its hue is exactly `0` and its chroma rational. -/

/-- Common denominator of the crafted anchor color. -/
def cjDen : ℝ := 5861481482534321810637070859043884943698253197632057569601

/-- The crafted chromatic anchor (≈ RGB(0.504, 0.003, 0.126)). -/
def anchorChroma : CJ_RGB :=
  ⟨2955000937026644302342872919288888495505807180758260000000 / cjDen,
   18390843252073420613693986603579631474718407992310000000 / cjDen,
   740612786284308259231384112708372972550105678071950000000 / cjDen⟩

/-- The middle cube root of `anchorChroma`'s LMS vector. -/
def wM : ℝ := 19439773037 / 39138588310

/-- OKLab lightness of `anchorChroma` (≈ 0.5184). -/
def wL : ℝ := 6340685003327855599 / 12230808846875000000

/-- OKLab chroma of `anchorChroma` (≈ 0.2058, hue exactly 0). -/
def wC : ℝ := 80561608553095304181 / 391385883100000000000

/-- Two-anchor config: black to `anchorChroma`, all biases neutral,
no vibrancy, MEDIUM contrast, OPEN loop, variation disabled. -/
def cfgC2 : CJ_Config :=
  { cj_config_init with
      anchors := [⟨0, 0, 0⟩, anchorChroma]
      anchor_count := 2
      mid_journey_vibrancy := 0 }

/-- As `cfgC2` but PINGPONG loop and full mid-journey vibrancy. -/
def cfgC5 : CJ_Config :=
  { cfgC2 with loop_mode := .pingpong, mid_journey_vibrancy := 1 }

/-- All-black two-anchor config (MEDIUM contrast, OPEN, no vibrancy):
every sample of its journey is pure black. -/
def cfgBlack : CJ_Config :=
  { cj_config_init with
      anchors := [⟨0, 0, 0⟩, ⟨0, 0, 0⟩]
      anchor_count := 2
      mid_journey_vibrancy := 0 }

/-- `cfgBlack` with lightness-only variation enabled and
`variation_seed = 0`. -/
def cfgSeedZero : CJ_Config :=
  { cfgBlack with
      variation_enabled := true
      variation_dimensions := 2
      variation_seed := 0 }

/-- `cfgSeedZero` with the documented default seed instead. -/
def cfgSeedDefault : CJ_Config :=
  { cfgSeedZero with variation_seed := 0x123456789ABCDEF0 }

/-- `cfgSeedDefault` with CLOSED loop mode and CUSTOM variation
strength of magnitude 1: a CLOSED journey with variation enabled. -/
def cfgSeedClosed : CJ_Config :=
  { cfgSeedDefault with
      loop_mode := .closed
      variation_strength := .custom
      variation_custom_magnitude := 1 }

/-- A minimal journey value used to instantiate universally quantified
theorems in witnesses. -/
def jWitness : CJ_Journey_Impl :=
  { config := cj_config_init
    anchor_lch := []
    anchor_count := 0
    waypoints := []
    waypoint_count := 0
    rng_state := 0 }

/-- `jWitness` with CLOSED loop mode. -/
def jWitnessClosed : CJ_Journey_Impl :=
  { jWitness with config := { cj_config_init with loop_mode := .closed } }

/-- `jWitness` with PINGPONG loop mode. -/
def jWitnessPingpong : CJ_Journey_Impl :=
  { jWitness with config := { cj_config_init with loop_mode := .pingpong } }

/-- The journey built from `cfgC2`. -/
def jC2 : CJ_Journey_Impl := mkJourney cfgC2

/-- The journey built from `cfgC5`. -/
def jC5 : CJ_Journey_Impl := mkJourney cfgC5

/-- The journey built from `cfgBlack`. -/
def jBlack : CJ_Journey_Impl := mkJourney cfgBlack

/-- The journey built from `cfgSeedZero`. -/
def jSeedZero : CJ_Journey_Impl := mkJourney cfgSeedZero

/-- The journey built from `cfgSeedDefault`. -/
def jSeedDefault : CJ_Journey_Impl := mkJourney cfgSeedDefault

/-- The journey built from `cfgSeedClosed`. -/
def jSeedClosed : CJ_Journey_Impl := mkJourney cfgSeedClosed

/-! ## Helper lemmas -/

theorem two_pi_pos : (0 : ℝ) < 2 * π := by positivity

theorem two_pi_gt_six : (6 : ℝ) < 2 * π := by nlinarith [Real.pi_gt_three]

theorem clampf_eq_self {x mn mx : ℝ} (h1 : mn ≤ x) (h2 : x ≤ mx) :
    clampf x mn mx = x := by
  unfold clampf
  rw [if_neg (not_lt.2 h1), if_neg (not_lt.2 h2)]

theorem clampf_of_lt {x mn mx : ℝ} (h : x < mn) : clampf x mn mx = mn :=
  if_pos h

theorem clampf_mem {x mn mx : ℝ} (h : mn ≤ mx) :
    mn ≤ clampf x mn mx ∧ clampf x mn mx ≤ mx := by
  unfold clampf
  split
  · exact ⟨le_rfl, h⟩
  · split
    · exact ⟨h, le_rfl⟩
    · next h1 h2 => exact ⟨not_lt.1 h1, not_lt.1 h2⟩

theorem smoothstep_eval {t : ℝ} (h0 : 0 ≤ t) (h1 : t ≤ 1) :
    smoothstep t = t * t * (3 - 2 * t) := by
  unfold smoothstep
  rw [clampf_eq_self h0 h1]

theorem rtrunc_of_nonneg {x : ℝ} (h : 0 ≤ x) : rtrunc x = ⌊x⌋ :=
  if_neg (not_lt.2 h)

theorem rtrunc_eq_zero {x : ℝ} (h0 : 0 ≤ x) (h1 : x < 1) : rtrunc x = 0 := by
  rw [rtrunc_of_nonneg h0]
  exact Int.floor_eq_zero_iff.2 ⟨h0, h1⟩

theorem fmodf_eval_small {x y : ℝ} (hy : 0 < y) (h0 : 0 ≤ x) (h1 : x < y) :
    fmodf x y = x := by
  unfold fmodf
  rw [rtrunc_eq_zero (div_nonneg h0 hy.le) ((div_lt_one hy).2 h1)]
  simp

theorem fmodf_self {y : ℝ} (hy : 0 < y) : fmodf y y = 0 := by
  unfold fmodf
  rw [div_self hy.ne.symm, rtrunc_of_nonneg (by norm_num)]
  norm_num

theorem normHue_eq_self {h : ℝ} (h0 : 0 ≤ h) (h1 : h < 2 * π) :
    normHue h = h := by
  unfold normHue
  rw [Int.floor_eq_zero_iff.2 ⟨div_nonneg h0 two_pi_pos.le, (div_lt_one two_pi_pos).2 h1⟩]
  simp

theorem normHue_zero : normHue 0 = 0 :=
  normHue_eq_self le_rfl two_pi_pos

theorem normHue_mem (h : ℝ) : 0 ≤ normHue h ∧ normHue h < 2 * π := by
  have key : normHue h = 2 * π * Int.fract (h / (2 * π)) := by
    unfold normHue
    rw [Int.fract]
    field_simp
  constructor
  · rw [key]
    exact mul_nonneg two_pi_pos.le (Int.fract_nonneg _)
  · rw [key]
    nlinarith [Int.fract_lt_one (h / (2 * π)), two_pi_pos]

theorem wrapDown_eq_self {h : ℝ} (h1 : h < 2 * π) : wrapDown h = h :=
  if_pos h1

theorem precise_cbrt_zero : precise_cbrt 0 = 0 := by
  unfold precise_cbrt
  rw [if_neg (by norm_num)]
  exact Real.zero_rpow (by norm_num)

theorem precise_cbrt_cube {q : ℝ} (hq : 0 ≤ q) : precise_cbrt (q ^ 3) = q := by
  unfold precise_cbrt
  rw [if_neg (not_lt.2 (by positivity))]
  rw [← Real.rpow_natCast q 3, ← Real.rpow_mul hq]
  norm_num

theorem precise_cbrt_mono {x y : ℝ} (hx : 0 ≤ x) (hxy : x ≤ y) :
    precise_cbrt x ≤ precise_cbrt y := by
  unfold precise_cbrt
  rw [if_neg (not_lt.2 hx), if_neg (not_lt.2 (hx.trans hxy))]
  exact Real.rpow_le_rpow hx hxy (by norm_num)

theorem atan2f_zero_zero : atan2f 0 0 = 0 := by
  unfold atan2f
  norm_num

theorem atan2f_zero_pos {x : ℝ} (hx : 0 < x) : atan2f 0 x = 0 := by
  unfold atan2f
  rw [if_pos hx, zero_div, Real.arctan_zero]

theorem real_sqrt_eval {x r : ℝ} (hr : 0 ≤ r) (h : x = r ^ 2) :
    Real.sqrt x = r := by
  rw [h, Real.sqrt_sq hr]

theorem cj_delta_e_L (a b : ℝ) : cj_delta_e ⟨a, 0, 0⟩ ⟨b, 0, 0⟩ = |a - b| := by
  unfold cj_delta_e
  simp only
  rw [show (a - b) * (a - b) + ((0:ℝ) - 0) * (0 - 0) + ((0:ℝ) - 0) * (0 - 0)
      = (a - b) ^ 2 by ring, Real.sqrt_sq_eq_abs]

theorem rgb_to_oklab_black : cj_rgb_to_oklab ⟨0, 0, 0⟩ = ⟨0, 0, 0⟩ := by
  unfold cj_rgb_to_oklab
  norm_num [precise_cbrt_zero]

theorem oklab_to_lch_zero : cj_oklab_to_lch ⟨0, 0, 0⟩ = ⟨0, 0, 0⟩ := by
  unfold cj_oklab_to_lch
  norm_num [atan2f_zero_zero]

theorem lch_to_oklab_hue_zero (L C : ℝ) :
    cj_lch_to_oklab ⟨L, C, 0⟩ = ⟨L, C, 0⟩ := by
  unfold cj_lch_to_oklab
  norm_num

theorem oklab_to_rgb_gray (L : ℝ) :
    cj_oklab_to_rgb ⟨L, 0, 0⟩ = ⟨L * L * L, L * L * L, L * L * L⟩ := by
  unfold cj_oklab_to_rgb
  simp only [CJ_RGB.mk.injEq]
  norm_num
  refine ⟨by ring, by ring, by ring⟩

theorem anchorChroma_oklab : cj_rgb_to_oklab anchorChroma = ⟨wL, wC, 0⟩ := by
  have hl : (0.4122214708 : ℝ) * anchorChroma.r + 0.5363325363 * anchorChroma.g +
      0.0514459929 * anchorChroma.b = ((3 : ℝ) / 5) ^ 3 := by
    unfold anchorChroma cjDen
    norm_num
  have hm : (0.2119034982 : ℝ) * anchorChroma.r + 0.6806995451 * anchorChroma.g +
      0.1073969566 * anchorChroma.b = wM ^ 3 := by
    unfold anchorChroma cjDen wM
    norm_num
  have hs : (0.0883024619 : ℝ) * anchorChroma.r + 0.2817188376 * anchorChroma.g +
      0.6299787005 * anchorChroma.b = ((1 : ℝ) / 2) ^ 3 := by
    unfold anchorChroma cjDen
    norm_num
  simp only [cj_rgb_to_oklab]
  rw [hl, hm, hs, precise_cbrt_cube (by norm_num), precise_cbrt_cube (by norm_num [wM]),
    precise_cbrt_cube (by norm_num)]
  simp only [CJ_Lab.mk.injEq]
  norm_num [wM, wL, wC]

theorem wC_pos : (0 : ℝ) < wC := by norm_num [wC]

theorem anchorChroma_lch :
    cj_oklab_to_lch (cj_rgb_to_oklab anchorChroma) = ⟨wL, wC, 0⟩ := by
  rw [anchorChroma_oklab]
  unfold cj_oklab_to_lch
  rw [atan2f_zero_pos wC_pos]
  norm_num
  exact real_sqrt_eval wC_pos.le (by ring)

theorem black_lch :
    cj_oklab_to_lch (cj_rgb_to_oklab ⟨0, 0, 0⟩) = ⟨0, 0, 0⟩ := by
  rw [rgb_to_oklab_black, oklab_to_lch_zero]

/-- Evaluate `mkJourney` on a two-anchor, temperature-neutral config. -/
theorem mkJourney_two (cfg : CJ_Config) (a0 a1 : CJ_RGB)
    (ha : cfg.anchors = [a0, a1]) (hc : cfg.anchor_count = 2)
    (ht : cfg.temperature_bias = .neutral) :
    mkJourney cfg =
      { config := cfg
        anchor_lch := [cj_oklab_to_lch (cj_rgb_to_oklab a0),
          cj_oklab_to_lch (cj_rgb_to_oklab a1)]
        anchor_count := 2
        waypoints := [⟨cj_oklab_to_lch (cj_rgb_to_oklab a0), 1⟩,
          ⟨cj_oklab_to_lch (cj_rgb_to_oklab a1), 1⟩]
        waypoint_count := 2
        rng_state := cfg.variation_seed } := by
  unfold mkJourney build_waypoints configAnchor
  simp only [hc, ht, ha]
  have h2 : (2 : ℤ).toNat = 2 := rfl
  rw [h2]
  norm_num [List.range_succ, List.getD]

/-- Evaluate `interpolate_waypoints` on a two-waypoint journey when the
transformed parameter is `u ∈ [0, 1]`. -/
theorem interpolate_two_eval (j : CJ_Journey_Impl) (w0 w1 : CJ_LCh)
    (hw : j.waypoints = [⟨w0, 1⟩, ⟨w1, 1⟩]) (hcnt : j.waypoint_count = 2)
    (t0 u : ℝ) (hu : clampf (loop_transform j.config.loop_mode t0) 0 1 = u)
    (h0 : 0 ≤ u) (h1 : u ≤ 1) :
    interpolate_waypoints j t0 =
      { L := lerpf w0.L w1.L (smoothstep u)
        C := lerpf w0.C w1.C (smoothstep u)
        h := hueBlend w0.h w1.h (smoothstep u) } := by
  unfold interpolate_waypoints
  rw [hcnt, hw, hu]
  have hss : (1 : ℝ) / (((2 : ℤ) : ℝ) - 1) = 1 := by norm_num
  rw [if_neg (by norm_num : ¬ (2 : ℤ) = 0), hss]
  rcases lt_or_eq_of_le h1 with hlt | heq
  · have hseg : rtrunc u = 0 := rtrunc_eq_zero h0 hlt
    norm_num [hseg, List.getD]
  · have hseg : rtrunc u = 1 := by
      rw [heq]
      unfold rtrunc
      norm_num
    norm_num [hseg, List.getD]

theorem apply_dynamics_neutral (j : CJ_Journey_Impl)
    (hl : j.config.lightness_bias = .neutral)
    (hch : j.config.chroma_bias = .neutral) (c0 : CJ_LCh) (t : ℝ) :
    apply_dynamics j c0 t =
      { L := clampf c0.L 0 1
        C := clampf (c0.C *
          (1 + j.config.mid_journey_vibrancy * 0.6 * max 0 (1 - |t - 0.5| / 0.35))) 0 0.4
        h := c0.h } := by
  unfold apply_dynamics
  rw [hl, hch]

theorem apply_variation_off (j : CJ_Journey_Impl)
    (hv : j.config.variation_enabled = false) (c : CJ_LCh) (t : ℝ) :
    apply_variation j c t = c := by
  unfold apply_variation
  rw [hv]
  simp

theorem sample_no_variation (j : CJ_Journey_Impl)
    (hv : j.config.variation_enabled = false) (t : ℝ) :
    cj_journey_sample j t =
      cj_rgb_clamp (cj_oklab_to_rgb (cj_lch_to_oklab
        (apply_dynamics j (interpolate_waypoints j t) t))) := by
  unfold cj_journey_sample
  rw [apply_variation_off j hv]

theorem hue_wrap_code_zero : hue_wrap_code 0 = 0 := by
  have h := Real.pi_pos
  unfold hue_wrap_code
  rw [if_neg (by linarith : ¬ (0 : ℝ) > π)]
  rw [if_neg (by linarith : ¬ (0 : ℝ) < -π)]

theorem hueBlend_zero (lt : ℝ) : hueBlend 0 0 lt = 0 := by
  unfold hueBlend
  rw [show (0 : ℝ) - 0 = 0 by ring, hue_wrap_code_zero]
  rw [show (0 : ℝ) + 0 * lt = 0 by ring]
  exact normHue_zero

theorem loop_transform_open (t : ℝ) : loop_transform .openMode t = t := by
  unfold loop_transform
  rw [if_neg (by decide), if_neg (by decide)]

theorem clampf_pos {x mx : ℝ} (hx : 0 < x) (hmx : 0 < mx) :
    0 < clampf x 0 mx := by
  unfold clampf
  rw [if_neg (not_lt.2 hx.le)]
  split
  · exact hmx
  · exact hx

/-- Full sample evaluation on a two-waypoint neutral-bias journey with
variation disabled. -/
theorem sample_eval_two (j : CJ_Journey_Impl) (w0 w1 : CJ_LCh)
    (hw : j.waypoints = [⟨w0, 1⟩, ⟨w1, 1⟩]) (hcnt : j.waypoint_count = 2)
    (hl : j.config.lightness_bias = .neutral)
    (hch : j.config.chroma_bias = .neutral)
    (hv : j.config.variation_enabled = false)
    (t0 u : ℝ) (hu : clampf (loop_transform j.config.loop_mode t0) 0 1 = u)
    (h0 : 0 ≤ u) (h1 : u ≤ 1) :
    cj_journey_sample j t0 =
      cj_rgb_clamp (cj_oklab_to_rgb (cj_lch_to_oklab
        { L := clampf (lerpf w0.L w1.L (smoothstep u)) 0 1
          C := clampf (lerpf w0.C w1.C (smoothstep u) *
            (1 + j.config.mid_journey_vibrancy * 0.6 *
              max 0 (1 - |t0 - 0.5| / 0.35))) 0 0.4
          h := hueBlend w0.h w1.h (smoothstep u) })) := by
  rw [sample_no_variation j hv,
    interpolate_two_eval j w0 w1 hw hcnt t0 u hu h0 h1,
    apply_dynamics_neutral j hl hch]

theorem jC2_eq :
    jC2 = { config := cfgC2
            anchor_lch := [⟨0, 0, 0⟩, ⟨wL, wC, 0⟩]
            anchor_count := 2
            waypoints := [⟨⟨0, 0, 0⟩, 1⟩, ⟨⟨wL, wC, 0⟩, 1⟩]
            waypoint_count := 2
            rng_state := 0x123456789ABCDEF0 } := by
  unfold jC2
  rw [mkJourney_two cfgC2 ⟨0, 0, 0⟩ anchorChroma rfl rfl rfl, black_lch,
    anchorChroma_lch]
  rfl

theorem jC5_eq :
    jC5 = { config := cfgC5
            anchor_lch := [⟨0, 0, 0⟩, ⟨wL, wC, 0⟩]
            anchor_count := 2
            waypoints := [⟨⟨0, 0, 0⟩, 1⟩, ⟨⟨wL, wC, 0⟩, 1⟩]
            waypoint_count := 2
            rng_state := 0x123456789ABCDEF0 } := by
  unfold jC5
  rw [mkJourney_two cfgC5 ⟨0, 0, 0⟩ anchorChroma rfl rfl rfl, black_lch,
    anchorChroma_lch]
  rfl

theorem jBlack_eq :
    jBlack = { config := cfgBlack
               anchor_lch := [⟨0, 0, 0⟩, ⟨0, 0, 0⟩]
               anchor_count := 2
               waypoints := [⟨⟨0, 0, 0⟩, 1⟩, ⟨⟨0, 0, 0⟩, 1⟩]
               waypoint_count := 2
               rng_state := 0x123456789ABCDEF0 } := by
  unfold jBlack
  rw [mkJourney_two cfgBlack ⟨0, 0, 0⟩ ⟨0, 0, 0⟩ rfl rfl rfl, black_lch]
  rfl

/-- Every sample of the all-black journey is pure black. -/
theorem sample_jBlack (t : ℝ) : cj_journey_sample jBlack t = ⟨0, 0, 0⟩ := by
  have hmem := clampf_mem
    (x := loop_transform jBlack.config.loop_mode t) (zero_le_one)
  rw [sample_eval_two jBlack ⟨0, 0, 0⟩ ⟨0, 0, 0⟩ (by rw [jBlack_eq])
    (by rw [jBlack_eq]) (by rw [jBlack_eq]; rfl) (by rw [jBlack_eq]; rfl)
    (by rw [jBlack_eq]; rfl) t _ rfl hmem.1 hmem.2]
  have hz : clampf (0 : ℝ) 0 1 = 0 := clampf_eq_self le_rfl zero_le_one
  simp only [lerpf, hueBlend_zero]
  norm_num [hz]
  rw [show clampf (0 : ℝ) 0 (2 / 5) = 0 from clampf_eq_self le_rfl (by norm_num)]
  rw [lch_to_oklab_hue_zero, oklab_to_rgb_gray]
  unfold cj_rgb_clamp
  norm_num [hz]

theorem sample_jC2_zero : cj_journey_sample jC2 0 = ⟨0, 0, 0⟩ := by
  have hu : clampf (loop_transform jC2.config.loop_mode 0) 0 1 = 0 := by
    rw [show jC2.config.loop_mode = .openMode by rw [jC2_eq]; rfl,
      loop_transform_open]
    exact clampf_eq_self le_rfl zero_le_one
  rw [sample_eval_two jC2 ⟨0, 0, 0⟩ ⟨wL, wC, 0⟩ (by rw [jC2_eq])
    (by rw [jC2_eq]) (by rw [jC2_eq]; rfl) (by rw [jC2_eq]; rfl)
    (by rw [jC2_eq]; rfl) 0 0 hu le_rfl zero_le_one]
  have hz : clampf (0 : ℝ) 0 1 = 0 := clampf_eq_self le_rfl zero_le_one
  have hs0 : smoothstep 0 = 0 := by
    rw [smoothstep_eval le_rfl zero_le_one]
    norm_num
  simp only [hs0, lerpf, hueBlend_zero]
  norm_num [hz]
  rw [show clampf (0 : ℝ) 0 (2 / 5) = 0 from clampf_eq_self le_rfl (by norm_num)]
  rw [lch_to_oklab_hue_zero, oklab_to_rgb_gray]
  unfold cj_rgb_clamp
  norm_num [hz]

theorem smoothstep_half : smoothstep 0.5 = 0.5 := by
  rw [smoothstep_eval (by norm_num) (by norm_num)]
  norm_num

theorem sample_jC2_half :
    cj_journey_sample jC2 0.5 = cj_rgb_clamp (cj_oklab_to_rgb ⟨wL / 2, wC / 2, 0⟩) := by
  have hu : clampf (loop_transform jC2.config.loop_mode 0.5) 0 1 = 0.5 := by
    rw [show jC2.config.loop_mode = .openMode by rw [jC2_eq]; rfl,
      loop_transform_open]
    exact clampf_eq_self (by norm_num) (by norm_num)
  rw [sample_eval_two jC2 ⟨0, 0, 0⟩ ⟨wL, wC, 0⟩ (by rw [jC2_eq])
    (by rw [jC2_eq]) (by rw [jC2_eq]; rfl) (by rw [jC2_eq]; rfl)
    (by rw [jC2_eq]; rfl) 0.5 0.5 hu (by norm_num) (by norm_num)]
  have hvib : jC2.config.mid_journey_vibrancy = 0 := by rw [jC2_eq]; rfl
  simp only [smoothstep_half, lerpf, hueBlend_zero, hvib]
  rw [show (0 : ℝ) + (wL - 0) * 0.5 = wL / 2 by ring,
    show ((0 : ℝ) + (wC - 0) * 0.5) * (1 + 0 * 0.6 * max 0 (1 - |0.5 - 0.5| / 0.35))
      = wC / 2 by ring]
  rw [clampf_eq_self (by norm_num [wL]) (by norm_num [wL]),
    clampf_eq_self (by norm_num [wC]) (by norm_num [wC]),
    lch_to_oklab_hue_zero]

theorem sample_jC2_half_r_bounds :
    0.063 < (cj_journey_sample jC2 0.5).r ∧ (cj_journey_sample jC2 0.5).r < 0.064 := by
  rw [sample_jC2_half]
  have hr : (cj_oklab_to_rgb ⟨wL / 2, wC / 2, 0⟩).r =
      4.0767416621 * ((wL / 2 + 0.3963377774 * (wC / 2) + 0.2158037573 * 0) ^ 3)
      - 3.3077115913 * ((wL / 2 - 0.1055613458 * (wC / 2) - 0.0638541728 * 0) ^ 3)
      + 0.2309699292 * ((wL / 2 - 0.0894841775 * (wC / 2) - 1.2914855480 * 0) ^ 3) := by
    unfold cj_oklab_to_rgb
    ring
  have h1 : 0.063 < (cj_oklab_to_rgb ⟨wL / 2, wC / 2, 0⟩).r := by
    rw [hr]
    norm_num [wL, wC]
  have h2 : (cj_oklab_to_rgb ⟨wL / 2, wC / 2, 0⟩).r < 0.064 := by
    rw [hr]
    norm_num [wL, wC]
  have hc : (cj_rgb_clamp (cj_oklab_to_rgb ⟨wL / 2, wC / 2, 0⟩)).r
      = (cj_oklab_to_rgb ⟨wL / 2, wC / 2, 0⟩).r := by
    unfold cj_rgb_clamp
    exact clampf_eq_self (by linarith) (by linarith)
  rw [hc]
  exact ⟨h1, h2⟩

theorem jC5_loop : jC5.config.loop_mode = .pingpong := by rw [jC5_eq]; rfl

theorem loop_transform_pingpong_three_halves :
    loop_transform .pingpong 1.5 = 0.5 := by
  have hf : fmodf (1.5 : ℝ) 2 = 1.5 :=
    fmodf_eval_small (by norm_num) (by norm_num) (by norm_num)
  unfold loop_transform
  rw [if_neg (by decide), if_pos (by decide)]
  simp only [hf]
  norm_num

theorem sample_jC5_half :
    cj_journey_sample jC5 0.5 =
      cj_rgb_clamp (cj_oklab_to_rgb ⟨wL / 2, wC * 0.8, 0⟩) := by
  have hu : clampf (loop_transform jC5.config.loop_mode 0.5) 0 1 = 0.5 := by
    have hf : fmodf (0.5 : ℝ) 2 = 0.5 :=
      fmodf_eval_small (by norm_num) (by norm_num) (by norm_num)
    rw [jC5_loop]
    unfold loop_transform
    rw [if_neg (by decide), if_pos (by decide)]
    simp only [hf]
    rw [if_neg (by norm_num : ¬ (0.5 : ℝ) < 0), if_neg (by norm_num : ¬ (0.5 : ℝ) > 1)]
    exact clampf_eq_self (by norm_num) (by norm_num)
  rw [sample_eval_two jC5 ⟨0, 0, 0⟩ ⟨wL, wC, 0⟩ (by rw [jC5_eq])
    (by rw [jC5_eq]) (by rw [jC5_eq]; rfl) (by rw [jC5_eq]; rfl)
    (by rw [jC5_eq]; rfl) 0.5 0.5 hu (by norm_num) (by norm_num)]
  have hvib : jC5.config.mid_journey_vibrancy = 1 := by rw [jC5_eq]; rfl
  have habs : max (0 : ℝ) (1 - |(0.5 : ℝ) - 0.5| / 0.35) = 1 := by
    rw [show (0.5 : ℝ) - 0.5 = 0 by norm_num, abs_zero]
    norm_num
  simp only [smoothstep_half, lerpf, hueBlend_zero, hvib, habs]
  rw [show (0 : ℝ) + (wL - 0) * 0.5 = wL / 2 by ring,
    show ((0 : ℝ) + (wC - 0) * 0.5) * (1 + 1 * 0.6 * 1) = wC * 0.8 by ring]
  rw [clampf_eq_self (by norm_num [wL]) (by norm_num [wL]),
    clampf_eq_self (by norm_num [wC]) (by norm_num [wC]),
    lch_to_oklab_hue_zero]

theorem sample_jC5_three_halves :
    cj_journey_sample jC5 1.5 =
      cj_rgb_clamp (cj_oklab_to_rgb ⟨wL / 2, wC / 2, 0⟩) := by
  have hu : clampf (loop_transform jC5.config.loop_mode 1.5) 0 1 = 0.5 := by
    rw [jC5_loop, loop_transform_pingpong_three_halves]
    exact clampf_eq_self (by norm_num) (by norm_num)
  rw [sample_eval_two jC5 ⟨0, 0, 0⟩ ⟨wL, wC, 0⟩ (by rw [jC5_eq])
    (by rw [jC5_eq]) (by rw [jC5_eq]; rfl) (by rw [jC5_eq]; rfl)
    (by rw [jC5_eq]; rfl) 1.5 0.5 hu (by norm_num) (by norm_num)]
  have hvib : jC5.config.mid_journey_vibrancy = 1 := by rw [jC5_eq]; rfl
  have habs : max (0 : ℝ) (1 - |(1.5 : ℝ) - 0.5| / 0.35) = 0 := by
    rw [show (1.5 : ℝ) - 0.5 = 1 by norm_num, abs_one]
    rw [max_eq_left (by norm_num)]
  simp only [smoothstep_half, lerpf, hueBlend_zero, hvib, habs]
  rw [show (0 : ℝ) + (wL - 0) * 0.5 = wL / 2 by ring,
    show ((0 : ℝ) + (wC - 0) * 0.5) * (1 + 1 * 0.6 * 0) = wC / 2 by ring]
  rw [clampf_eq_self (by norm_num [wL]) (by norm_num [wL]),
    clampf_eq_self (by norm_num [wC]) (by norm_num [wC]),
    lch_to_oklab_hue_zero]

theorem sample_jC5_half_r_bounds :
    0.0958 < (cj_journey_sample jC5 0.5).r ∧ (cj_journey_sample jC5 0.5).r < 0.0959 := by
  rw [sample_jC5_half]
  have hr : (cj_oklab_to_rgb ⟨wL / 2, wC * 0.8, 0⟩).r =
      4.0767416621 * ((wL / 2 + 0.3963377774 * (wC * 0.8) + 0.2158037573 * 0) ^ 3)
      - 3.3077115913 * ((wL / 2 - 0.1055613458 * (wC * 0.8) - 0.0638541728 * 0) ^ 3)
      + 0.2309699292 * ((wL / 2 - 0.0894841775 * (wC * 0.8) - 1.2914855480 * 0) ^ 3) := by
    unfold cj_oklab_to_rgb
    ring
  have h1 : 0.0958 < (cj_oklab_to_rgb ⟨wL / 2, wC * 0.8, 0⟩).r := by
    rw [hr]
    norm_num [wL, wC]
  have h2 : (cj_oklab_to_rgb ⟨wL / 2, wC * 0.8, 0⟩).r < 0.0959 := by
    rw [hr]
    norm_num [wL, wC]
  have hc : (cj_rgb_clamp (cj_oklab_to_rgb ⟨wL / 2, wC * 0.8, 0⟩)).r
      = (cj_oklab_to_rgb ⟨wL / 2, wC * 0.8, 0⟩).r := by
    unfold cj_rgb_clamp
    exact clampf_eq_self (by linarith) (by linarith)
  rw [hc]
  exact ⟨h1, h2⟩

theorem sample_jC5_three_halves_r_bounds :
    0.063 < (cj_journey_sample jC5 1.5).r ∧ (cj_journey_sample jC5 1.5).r < 0.064 := by
  rw [sample_jC5_three_halves]
  have hr : (cj_oklab_to_rgb ⟨wL / 2, wC / 2, 0⟩).r =
      4.0767416621 * ((wL / 2 + 0.3963377774 * (wC / 2) + 0.2158037573 * 0) ^ 3)
      - 3.3077115913 * ((wL / 2 - 0.1055613458 * (wC / 2) - 0.0638541728 * 0) ^ 3)
      + 0.2309699292 * ((wL / 2 - 0.0894841775 * (wC / 2) - 1.2914855480 * 0) ^ 3) := by
    unfold cj_oklab_to_rgb
    ring
  have h1 : 0.063 < (cj_oklab_to_rgb ⟨wL / 2, wC / 2, 0⟩).r := by
    rw [hr]
    norm_num [wL, wC]
  have h2 : (cj_oklab_to_rgb ⟨wL / 2, wC / 2, 0⟩).r < 0.064 := by
    rw [hr]
    norm_num [wL, wC]
  have hc : (cj_rgb_clamp (cj_oklab_to_rgb ⟨wL / 2, wC / 2, 0⟩)).r
      = (cj_oklab_to_rgb ⟨wL / 2, wC / 2, 0⟩).r := by
    unfold cj_rgb_clamp
    exact clampf_eq_self (by linarith) (by linarith)
  rw [hc]
  exact ⟨h1, h2⟩

theorem discreteAt_jC2_zero : cj_journey_discrete_at (some jC2) 0 = ⟨0, 0, 0⟩ := by
  have hp : discrete_position_from_index (((0 : ℕ) : ℤ)) = 0 := by
    unfold discrete_position_from_index
    rw [if_neg (by norm_num : ¬ ((0 : ℕ) : ℤ) < 0)]
    rw [show (((0 : ℕ) : ℤ) : ℝ) * CJ_DISCRETE_DEFAULT_SPACING = 0 by
      norm_num [CJ_DISCRETE_DEFAULT_SPACING]]
    exact fmodf_eval_small one_pos le_rfl one_pos
  simp only [cj_journey_discrete_at]
  rw [if_neg (by norm_num : ¬ (0 : ℤ) < 0)]
  simp only [Int.toNat_zero, chainPrev, discrete_color_at_index,
    apply_minimum_contrast, hp, sample_jC2_zero]

theorem discrete_jC2_one :
    cj_journey_discrete jC2 1 = [cj_journey_sample jC2 0.5] := by
  have hloop : jC2.config.loop_mode = .openMode := by rw [jC2_eq]; rfl
  have hpos : discrete_position_with_loop_mode jC2 ((0 : ℕ) : ℤ) 1 = 0.5 := by
    unfold discrete_position_with_loop_mode
    rw [if_neg (by norm_num : ¬ ((0 : ℕ) : ℤ) < 0),
      if_neg (by norm_num : ¬ (1 : ℤ) ≤ 0)]
    simp only [hloop]
    rw [if_neg (by norm_num : ¬ (1 : ℤ) < 1)]
  unfold cj_journey_discrete
  rw [if_neg (by norm_num : ¬ (1 : ℤ) ≤ 0)]
  simp only [show (1 : ℤ).toNat = 1 from rfl, discrete_build, hpos]
  rw [if_neg (by norm_num : ¬ (20 : ℤ) < 1)]
  norm_num

/-- One refinement iteration on the black journey: every iteration
halves the distance of `L` to the `0.1` threshold and leaves `a = b = 0`.
-/
theorem contrast_body_black (L : ℝ) (k : ℕ) (h0 : 0 ≤ L) (h1 : L < 0.1)
    (hk : 0.2 * (k : ℝ) < 2 * π) :
    contrast_body ⟨0, 0, 0⟩ 0.1 ⟨L, 0, 0⟩ k = (⟨(L + 0.1) / 2, 0, 0⟩, false) := by
  have hdE : cj_delta_e ⟨L, 0, 0⟩ ⟨0, 0, 0⟩ = L := by
    rw [cj_delta_e_L, sub_zero, abs_of_nonneg h0]
  unfold contrast_body
  rw [hdE, if_neg (by linarith : ¬ (0.1 : ℝ) ≤ L)]
  rw [if_pos (show ((⟨0, 0, 0⟩ : CJ_Lab).L < 0.5) from by norm_num)]
  have hm0 : (0 : ℝ) ≤ (⟨L, 0, 0⟩ : CJ_Lab).L + 1 * ((0.1 - L) * 0.5) := by
    show (0 : ℝ) ≤ L + 1 * ((0.1 - L) * 0.5)
    linarith
  have hm1 : (⟨L, 0, 0⟩ : CJ_Lab).L + 1 * ((0.1 - L) * 0.5) ≤ 1 := by
    show L + 1 * ((0.1 - L) * 0.5) ≤ 1
    linarith
  rw [clampf_eq_self hm0 hm1]
  simp only [show L + 1 * ((0.1 - L) * 0.5) = (L + 0.1) / 2 from by ring]
  have hdE1 : cj_delta_e ⟨(L + 0.1) / 2, 0, 0⟩ ⟨0, 0, 0⟩ = (L + 0.1) / 2 := by
    rw [cj_delta_e_L, sub_zero, abs_of_nonneg (by linarith)]
  have hlch : cj_oklab_to_lch ⟨(L + 0.1) / 2, 0, 0⟩ = ⟨(L + 0.1) / 2, 0, 0⟩ := by
    unfold cj_oklab_to_lch
    rw [atan2f_zero_zero]
    norm_num
  simp only [hdE1, hlch]
  rw [if_neg (by linarith : ¬ (0.1 : ℝ) ≤ (L + 0.1) / 2)]
  rw [if_neg (show ¬ ((0 : ℝ) > 0.00001) from by norm_num)]
  rw [zero_add, wrapDown_eq_self hk]
  unfold cj_lch_to_oklab
  norm_num

theorem contrast_loop_black :
    contrast_loop 5 0 ⟨0, 0, 0⟩ ⟨0, 0, 0⟩ 0.1 = (⟨31 / 320, 0, 0⟩, false) := by
  have hb0 : contrast_body ⟨0, 0, 0⟩ 0.1 ⟨0, 0, 0⟩ 0 = (⟨1 / 20, 0, 0⟩, false) := by
    rw [contrast_body_black 0 0 le_rfl (by norm_num) (by nlinarith [two_pi_gt_six])]
    norm_num
  have hb1 : contrast_body ⟨0, 0, 0⟩ 0.1 ⟨1 / 20, 0, 0⟩ 1 = (⟨3 / 40, 0, 0⟩, false) := by
    rw [contrast_body_black (1 / 20) 1 (by norm_num) (by norm_num)
      (by nlinarith [two_pi_gt_six])]
    norm_num
  have hb2 : contrast_body ⟨0, 0, 0⟩ 0.1 ⟨3 / 40, 0, 0⟩ 2 = (⟨7 / 80, 0, 0⟩, false) := by
    rw [contrast_body_black (3 / 40) 2 (by norm_num) (by norm_num)
      (by nlinarith [two_pi_gt_six])]
    norm_num
  have hb3 : contrast_body ⟨0, 0, 0⟩ 0.1 ⟨7 / 80, 0, 0⟩ 3 = (⟨3 / 32, 0, 0⟩, false) := by
    rw [contrast_body_black (7 / 80) 3 (by norm_num) (by norm_num)
      (by nlinarith [two_pi_gt_six])]
    norm_num
  have hb4 : contrast_body ⟨0, 0, 0⟩ 0.1 ⟨3 / 32, 0, 0⟩ 4 = (⟨31 / 320, 0, 0⟩, false) := by
    rw [contrast_body_black (3 / 32) 4 (by norm_num) (by norm_num)
      (by nlinarith [two_pi_gt_six])]
    norm_num
  simp only [contrast_loop, hb0, hb1, hb2, hb3, hb4]

theorem amc_black :
    apply_minimum_contrast ⟨0, 0, 0⟩ (some ⟨0, 0, 0⟩) 0.1 =
      ⟨29791 / 32768000, 29791 / 32768000, 29791 / 32768000⟩ := by
  simp only [apply_minimum_contrast, rgb_to_oklab_black]
  rw [contrast_loop_black]
  simp only
  rw [oklab_to_rgb_gray]
  unfold cj_rgb_clamp
  simp only
  rw [clampf_eq_self (by norm_num) (by norm_num)]
  norm_num

theorem discrete_min_delta_e_jBlack : discrete_min_delta_e jBlack = 0.1 := rfl

theorem discrete_jBlack_two :
    cj_journey_discrete jBlack 2 =
      [⟨0, 0, 0⟩, ⟨29791 / 32768000, 29791 / 32768000, 29791 / 32768000⟩] := by
  unfold cj_journey_discrete
  rw [if_neg (by norm_num : ¬ (2 : ℤ) ≤ 0)]
  simp only [show (2 : ℤ).toNat = 2 from rfl, discrete_build, sample_jBlack,
    discrete_min_delta_e_jBlack]
  rw [if_neg (by norm_num : ¬ (20 : ℤ) < 2)]
  simp only [if_true]
  rw [if_neg (show ¬ (0 + 1 : ℕ) = 0 from by norm_num)]
  rw [amc_black]

/-- OKLab image of the gray color produced by the black-journey
contrast enforcement, in terms of the one irrational cube root `μ`. -/
theorem gray_oklab_eval :
    cj_rgb_to_oklab ⟨29791 / 32768000, 29791 / 32768000, 29791 / 32768000⟩ =
      ⟨0.2104542553 * (31 / 320) +
          0.7936177850 * precise_cbrt (297909999970209 / 327680000000000000) -
          0.0040720468 * (31 / 320),
        1.9779984951 * (31 / 320) -
          2.4285922050 * precise_cbrt (297909999970209 / 327680000000000000) +
          0.4505937099 * (31 / 320),
        0.0259040371 * (31 / 320) +
          0.7827717662 * precise_cbrt (297909999970209 / 327680000000000000) -
          0.8086757660 * (31 / 320)⟩ := by
  have hl : (0.4122214708 : ℝ) * (29791 / 32768000) +
      0.5363325363 * (29791 / 32768000) + 0.0514459929 * (29791 / 32768000)
      = ((31 / 320 : ℝ)) ^ 3 := by norm_num
  have hm : (0.2119034982 : ℝ) * (29791 / 32768000) +
      0.6806995451 * (29791 / 32768000) + 0.1073969566 * (29791 / 32768000)
      = (297909999970209 / 327680000000000000 : ℝ) := by norm_num
  have hs : (0.0883024619 : ℝ) * (29791 / 32768000) +
      0.2817188376 * (29791 / 32768000) + 0.6299787005 * (29791 / 32768000)
      = ((31 / 320 : ℝ)) ^ 3 := by norm_num
  simp only [cj_rgb_to_oklab]
  rw [hl, hm, hs, precise_cbrt_cube (by norm_num)]

/-- Bounds on the one irrational cube root in `gray_oklab_eval`. -/
theorem gray_cbrt_bounds :
    (96778125 / 1000000000 : ℝ) ≤ precise_cbrt (297909999970209 / 327680000000000000) ∧
      precise_cbrt (297909999970209 / 327680000000000000) ≤ 31 / 320 := by
  constructor
  · calc (96778125 / 1000000000 : ℝ)
        = precise_cbrt (((96778125 / 1000000000 : ℝ)) ^ 3) :=
          (precise_cbrt_cube (by norm_num)).symm
      _ ≤ precise_cbrt (297909999970209 / 327680000000000000) :=
          precise_cbrt_mono (by norm_num) (by norm_num)
  · calc precise_cbrt (297909999970209 / 327680000000000000 : ℝ)
        ≤ precise_cbrt (((31 / 320 : ℝ)) ^ 3) :=
          precise_cbrt_mono (by norm_num) (by norm_num)
      _ = 31 / 320 := precise_cbrt_cube (by norm_num)

/-- The two black-journey palette entries are closer than `0.099` in
OKLab: the bounded contrast enforcement stopped short of `0.1`. -/
theorem black_gray_dE_lt :
    cj_delta_e (cj_rgb_to_oklab ⟨0, 0, 0⟩)
      (cj_rgb_to_oklab ⟨29791 / 32768000, 29791 / 32768000, 29791 / 32768000⟩)
      < 0.099 := by
  obtain ⟨hlo, hhi⟩ := gray_cbrt_bounds
  rw [rgb_to_oklab_black, gray_oklab_eval]
  unfold cj_delta_e
  simp only
  rw [Real.sqrt_lt' (by norm_num : (0 : ℝ) < 0.099)]
  nlinarith [mul_nonneg (sub_nonneg.2 hlo) (sub_nonneg.2 hhi), hlo, hhi]

/-! ## Chained-sequence lemmas (for the index/range accessors) -/

theorem getD_set_self {l : List CJ_RGB} {i : ℕ} {a d : CJ_RGB}
    (h : i < l.length) : (l.set i a).getD i d = a := by
  simp [List.getD, List.getElem?_set_self', h]

theorem getD_set_ne {l : List CJ_RGB} {i j : ℕ} {a d : CJ_RGB}
    (h : i ≠ j) : (l.set i a).getD j d = l.getD j d := by
  simp [List.getD, List.getElem?_set_ne h]

/-- `discrete_range_loop` never touches buffer entries below `pos`. -/
theorem range_loop_preserve (j : CJ_Journey_Impl) (δ : ℝ) (d : CJ_RGB) :
    ∀ (n idx pos : ℕ) (prev : Option CJ_RGB) (buf : List CJ_RGB) (q : ℕ),
      q < pos →
      (discrete_range_loop j δ n idx pos prev buf).getD q d = buf.getD q d := by
  intro n
  induction n with
  | zero => intro idx pos prev buf q _; rfl
  | succ n ih =>
    intro idx pos prev buf q hq
    show (discrete_range_loop j δ n (idx + 1) (pos + 1) _ _).getD q d = _
    rw [ih (idx + 1) (pos + 1) _ _ q (by omega)]
    exact getD_set_ne (by omega)

/-- Element `pos + m` written by `discrete_range_loop`, when the loop is
entered with the replay state `chainPrev j δ idx`, is the chained color
at absolute index `idx + m`. -/
theorem range_loop_getD (j : CJ_Journey_Impl) (δ : ℝ) (d : CJ_RGB) :
    ∀ (n m idx pos : ℕ) (buf : List CJ_RGB), m < n → pos + n ≤ buf.length →
      (discrete_range_loop j δ n idx pos (chainPrev j δ idx) buf).getD (pos + m) d =
        discrete_color_at_index j (idx + m) (chainPrev j δ (idx + m)) δ := by
  intro n
  induction n with
  | zero => intro m idx pos buf hm; omega
  | succ n ih =>
    intro m idx pos buf hm hlen
    show (discrete_range_loop j δ n (idx + 1) (pos + 1) (some _) _).getD (pos + m) d = _
    rcases Nat.eq_zero_or_pos m with hm0 | hmpos
    · subst hm0
      rw [show (some (discrete_color_at_index j idx (chainPrev j δ idx) δ)) =
        chainPrev j δ (idx + 1) from rfl]
      rw [range_loop_preserve j δ d n (idx + 1) (pos + 1) _ _ (pos + 0) (by omega)]
      rw [Nat.add_zero]
      exact getD_set_self (by omega)
    · obtain ⟨m', rfl⟩ : ∃ m', m = m' + 1 := ⟨m - 1, by omega⟩
      rw [show (some (discrete_color_at_index j idx (chainPrev j δ idx) δ)) =
        chainPrev j δ (idx + 1) from rfl]
      rw [show pos + (m' + 1) = (pos + 1) + m' by omega]
      rw [ih m' (idx + 1) (pos + 1) _ (by omega) (by simp; omega)]
      rw [show idx + 1 + m' = idx + (m' + 1) by omega]

/-- `cj_journey_discrete_at` at a natural index is the chained color. -/
theorem discrete_at_natCast (j : CJ_Journey_Impl) (i : ℕ) :
    cj_journey_discrete_at (some j) (i : ℤ) =
      discrete_color_at_index j i
        (chainPrev j (discrete_min_delta_e j) i) (discrete_min_delta_e j) := by
  simp only [cj_journey_discrete_at]
  rw [if_neg (by omega : ¬ (i : ℤ) < 0)]
  rw [show ((i : ℤ)).toNat = i from Int.toNat_natCast i]

/-- `cj_journey_discrete_range` at natural arguments, elementwise. -/
theorem discrete_range_natCast (j : CJ_Journey_Impl) (s c k : ℕ)
    (buf : List CJ_RGB) (hk : k < c) (hbuf : c ≤ buf.length) :
    (cj_journey_discrete_range (some j) (s : ℤ) (c : ℤ) buf).getD k ⟨0, 0, 0⟩ =
      discrete_color_at_index j (s + k)
        (chainPrev j (discrete_min_delta_e j) (s + k)) (discrete_min_delta_e j) := by
  simp only [cj_journey_discrete_range]
  rw [if_neg (by omega : ¬ ((c : ℤ) ≤ 0 ∨ (s : ℤ) < 0))]
  rw [show ((c : ℤ)).toNat = c from Int.toNat_natCast c,
    show ((s : ℤ)).toNat = s from Int.toNat_natCast s]
  have := range_loop_getD j (discrete_min_delta_e j) ⟨0, 0, 0⟩ c k s 0 buf hk
    (by omega)
  rw [Nat.zero_add] at this
  exact this

/-! ## Best-effort contrast enforcement lemmas -/

/-- If an iteration of the refinement loop exits through a `break`
(boolean `true`), the color it returns meets the threshold. -/
theorem contrast_body_break_sound (prev : CJ_Lab) (δ : ℝ) (curr : CJ_Lab)
    (k : ℕ) (h : (contrast_body prev δ curr k).2 = true) :
    δ ≤ cj_delta_e (contrast_body prev δ curr k).1 prev := by
  unfold contrast_body at h ⊢
  by_cases h1 : δ ≤ cj_delta_e curr prev
  · rw [if_pos h1] at h ⊢
    exact h1
  · rw [if_neg h1] at h ⊢
    by_cases h2 : δ ≤ cj_delta_e
        { curr with
            L := clampf (curr.L + (if prev.L < 0.5 then (1 : ℝ) else -1) *
              ((δ - cj_delta_e curr prev) * 0.5)) 0 1 } prev
    · rw [if_pos h2] at h ⊢
      exact h2
    · rw [if_neg h2] at h
      exact absurd h (by simp)

/-- If the bounded refinement loop reports success (it exited through a
`break`), the color it returns meets the threshold. -/
theorem contrast_loop_break_sound :
    ∀ (fuel k : ℕ) (curr prev : CJ_Lab) (δ : ℝ),
      (contrast_loop fuel k curr prev δ).2 = true →
      δ ≤ cj_delta_e (contrast_loop fuel k curr prev δ).1 prev := by
  intro fuel
  induction fuel with
  | zero => intro k curr prev δ h; exact absurd h (by simp [contrast_loop])
  | succ fuel ih =>
    intro k curr prev δ h
    rcases hb : contrast_body prev δ curr k with ⟨c, flag⟩
    cases flag with
    | true =>
      have hs := contrast_body_break_sound prev δ curr k (by rw [hb])
      rw [hb] at hs
      simp only [contrast_loop, hb] at h ⊢
      exact hs
    | false =>
      simp only [contrast_loop, hb] at h ⊢
      exact ih (k + 1) c prev δ h

/-- Element `m + 1` of the `cj_journey_discrete` generation loop is the
contrast-enforced sample against element `m`. -/
theorem discrete_build_getD (j : CJ_Journey_Impl) (δ : ℝ) (total : ℤ)
    (d : CJ_RGB) :
    ∀ (m fuel i : ℕ) (prev : CJ_RGB), m + 1 < fuel →
      (discrete_build j δ total fuel i prev).getD (m + 1) d =
        apply_minimum_contrast
          (cj_journey_sample j
            (discrete_position_with_loop_mode j ((i + m + 1 : ℕ) : ℤ) total))
          (some ((discrete_build j δ total fuel i prev).getD m d)) δ := by
  intro m
  induction m with
  | zero =>
    intro fuel i prev hm
    obtain ⟨f, rfl⟩ : ∃ f, fuel = f + 1 := ⟨fuel - 1, by omega⟩
    obtain ⟨f', rfl⟩ : ∃ f', f = f' + 1 := ⟨f - 1, by omega⟩
    show (discrete_build j δ total (f' + 1) (i + 1) _).getD 0 d = _
    simp only [discrete_build, List.getD_cons_zero]
    rw [if_neg (by omega : ¬ i + 1 = 0)]
  | succ m' ih =>
    intro fuel i prev hm
    obtain ⟨f, rfl⟩ : ∃ f, fuel = f + 1 := ⟨fuel - 1, by omega⟩
    show (discrete_build j δ total f (i + 1) _).getD (m' + 1) d = _
    rw [ih f (i + 1) _ (by omega)]
    rw [show i + 1 + m' + 1 = i + (m' + 1) + 1 by omega]
    rfl

/-! ## Loop-boundary lemmas -/

theorem interpolate_congr (j : CJ_Journey_Impl) {t1 t2 : ℝ}
    (h : clampf (loop_transform j.config.loop_mode t1) 0 1 =
      clampf (loop_transform j.config.loop_mode t2) 0 1) :
    interpolate_waypoints j t1 = interpolate_waypoints j t2 := by
  unfold interpolate_waypoints
  rw [h]

theorem apply_dynamics_congr (j : CJ_Journey_Impl) (c : CJ_LCh) {t1 t2 : ℝ}
    (h : |t1 - 0.5| = |t2 - 0.5|) :
    apply_dynamics j c t1 = apply_dynamics j c t2 := by
  unfold apply_dynamics
  rw [h]

theorem loop_transform_closed_zero : loop_transform .closed 0 = 0 := by
  have hf : fmodf (0 : ℝ) 1 = 0 := fmodf_eval_small one_pos le_rfl one_pos
  unfold loop_transform
  rw [if_pos rfl]
  simp only [hf]
  norm_num

theorem loop_transform_closed_one : loop_transform .closed 1 = 0 := by
  have hf : fmodf (1 : ℝ) 1 = 0 := fmodf_self one_pos
  unfold loop_transform
  rw [if_pos rfl]
  simp only [hf]
  norm_num

/-- With CLOSED looping and variation disabled, the samples at `t = 0`
and `t = 1` are identical. -/
theorem sample_closed_boundary (j : CJ_Journey_Impl)
    (hc : j.config.loop_mode = .closed)
    (hv : j.config.variation_enabled = false) :
    cj_journey_sample j 0 = cj_journey_sample j 1 := by
  have hi : interpolate_waypoints j 0 = interpolate_waypoints j 1 := by
    apply interpolate_congr
    rw [hc, loop_transform_closed_zero, loop_transform_closed_one]
  have hd : ∀ c, apply_dynamics j c 0 = apply_dynamics j c 1 := fun c => by
    apply apply_dynamics_congr
    rw [show ((0 : ℝ) - 0.5) = -0.5 by ring, show ((1 : ℝ) - 0.5) = 0.5 by norm_num,
      abs_neg]
  rw [sample_no_variation j hv 0, sample_no_variation j hv 1, hi, hd]

theorem loop_transform_pingpong_mirror {t : ℝ} (h1 : 1 < t) (h2 : t ≤ 2) :
    loop_transform .pingpong t = loop_transform .pingpong (2 - t) := by
  rcases eq_or_lt_of_le h2 with heq | hlt
  · subst heq
    have hfa : fmodf (2 : ℝ) 2 = 0 := fmodf_self (by norm_num)
    have hfb : fmodf ((2 : ℝ) - 2) 2 = 0 := by
      rw [show ((2 : ℝ) - 2) = 0 by norm_num]
      exact fmodf_eval_small (by norm_num) le_rfl (by norm_num)
    unfold loop_transform
    rw [if_neg (by decide), if_pos (by decide)]
    simp only [hfa, hfb]
    norm_num
    simp
  · have hfa : fmodf t 2 = t := fmodf_eval_small (by norm_num) (by linarith) hlt
    have hfb : fmodf (2 - t) 2 = 2 - t :=
      fmodf_eval_small (by norm_num) (by linarith) (by linarith)
    unfold loop_transform
    rw [if_neg (by decide), if_pos (by decide)]
    simp only [hfa, hfb]
    rw [if_neg (by linarith : ¬ t < 0), if_pos (by linarith : t > 1),
      if_neg (by linarith : ¬ (2 - t) < 0), if_neg (by linarith : ¬ (2 - t) > 1)]
    simp

/-- With PINGPONG looping, the waypoint interpolation is mirror
symmetric: `interp t = interp (2 - t)` for `t ∈ (1, 2]`. -/
theorem interpolate_pingpong_mirror (j : CJ_Journey_Impl)
    (hp : j.config.loop_mode = .pingpong) {t : ℝ} (h1 : 1 < t) (h2 : t ≤ 2) :
    interpolate_waypoints j t = interpolate_waypoints j (2 - t) := by
  apply interpolate_congr
  rw [hp, loop_transform_pingpong_mirror h1 h2]

/-! ## Hue-wrap lemmas -/

/-- The code's wrapped hue difference always has magnitude at most `π`
and is congruent to the raw difference modulo `2π`, for hues in
`[0, 2π)`: interpolation always takes a shortest arc. -/
theorem hue_wrap_code_shortest {a b : ℝ} (ha0 : 0 ≤ a) (ha1 : a < 2 * π)
    (hb0 : 0 ≤ b) (hb1 : b < 2 * π) :
    |hue_wrap_code (b - a)| ≤ π ∧
      ∃ k : ℤ, hue_wrap_code (b - a) = (b - a) + 2 * π * k := by
  have hpi := Real.pi_pos
  unfold hue_wrap_code
  by_cases hgt : b - a > π
  · rw [if_pos hgt, if_neg (by linarith : ¬ b - a - 2 * π < -π)]
    constructor
    · rw [abs_le]
      constructor <;> linarith
    · exact ⟨-1, by push_cast; ring⟩
  · rw [if_neg hgt]
    by_cases hlt : b - a < -π
    · rw [if_pos hlt]
      constructor
      · rw [abs_le]
        constructor <;> linarith
      · exact ⟨1, by push_cast; ring⟩
    · rw [if_neg hlt]
      constructor
      · rw [abs_le]
        push_neg at hgt hlt
        constructor <;> linarith
      · exact ⟨0, by push_cast; ring⟩

/-- The concrete shortest-path instance of the spec: from hue 6.2 to
hue 0.2 the wrapped difference is `2π - 6 ≈ 0.283`, at most `0.4`. -/
theorem hue_wrap_code_62_02 :
    hue_wrap_code (0.2 - 6.2) = 2 * π - 6 ∧ |hue_wrap_code (0.2 - 6.2)| ≤ 0.4 := by
  have hgt := Real.pi_gt_d6
  have hlt := Real.pi_lt_d6
  have hv : hue_wrap_code (0.2 - 6.2) = 2 * π - 6 := by
    unfold hue_wrap_code
    rw [if_neg (by linarith : ¬ (0.2 - 6.2 : ℝ) > π),
      if_pos (by linarith : (0.2 - 6.2 : ℝ) < -π)]
    ring
  refine ⟨hv, ?_⟩
  rw [hv, abs_of_nonneg (by linarith)]
  linarith

/-- The code keeps a hue difference of exactly `-π` (the spec's
`(-π, π]` wrap would map it to `+π`). -/
theorem hue_wrap_code_neg_pi : hue_wrap_code (0 - π) = -π := by
  have hpi := Real.pi_pos
  unfold hue_wrap_code
  rw [show (0 : ℝ) - π = -π by ring]
  rw [if_neg (by linarith : ¬ (-π : ℝ) > π), if_neg (by linarith : ¬ (-π : ℝ) < -π)]

theorem hue_wrap_spec_neg_pi : hue_wrap_spec (0 - π) = π := by
  have hpi := Real.pi_pos
  unfold hue_wrap_spec
  rw [show ((0 : ℝ) - π - π) / (2 * π) = -1 by field_simp; ring]
  rw [show (-1 : ℝ) = ((-1 : ℤ) : ℝ) by norm_num, Int.ceil_intCast]
  push_cast
  ring

/-! ## Trace lemmas -/

/-- Running any call sequence returns the per-call pure outputs and
leaves the journey unchanged. -/
theorem runTrace_pure (j : CJ_Journey_Impl) :
    ∀ calls : List APICall, runTrace j calls = (calls.map (callOutput j), j) := by
  intro calls
  induction calls with
  | nil => rfl
  | cons c cs ih =>
    show (callOutput j c :: (runTrace j cs).1, (runTrace j cs).2) = _
    rw [ih]
    rfl

/-! ## Variation-path evaluation (for the seed-zero claim) -/

theorem jSeedZero_eq :
    jSeedZero = { config := cfgSeedZero
                  anchor_lch := [⟨0, 0, 0⟩, ⟨0, 0, 0⟩]
                  anchor_count := 2
                  waypoints := [⟨⟨0, 0, 0⟩, 1⟩, ⟨⟨0, 0, 0⟩, 1⟩]
                  waypoint_count := 2
                  rng_state := 0 } := by
  unfold jSeedZero
  rw [mkJourney_two cfgSeedZero ⟨0, 0, 0⟩ ⟨0, 0, 0⟩ rfl rfl rfl, black_lch]
  rfl

theorem jSeedDefault_eq :
    jSeedDefault = { config := cfgSeedDefault
                     anchor_lch := [⟨0, 0, 0⟩, ⟨0, 0, 0⟩]
                     anchor_count := 2
                     waypoints := [⟨⟨0, 0, 0⟩, 1⟩, ⟨⟨0, 0, 0⟩, 1⟩]
                     waypoint_count := 2
                     rng_state := 0x123456789ABCDEF0 } := by
  unfold jSeedDefault
  rw [mkJourney_two cfgSeedDefault ⟨0, 0, 0⟩ ⟨0, 0, 0⟩ rfl rfl rfl, black_lch]
  rfl

/-- Interpolation plus dynamics on an all-black two-waypoint journey is
the zero LCh color, at every `t`. -/
theorem dynamics_interp_black (j : CJ_Journey_Impl)
    (hw : j.waypoints = [⟨⟨0, 0, 0⟩, 1⟩, ⟨⟨0, 0, 0⟩, 1⟩])
    (hcnt : j.waypoint_count = 2)
    (hl : j.config.lightness_bias = .neutral)
    (hch : j.config.chroma_bias = .neutral) (t : ℝ) :
    apply_dynamics j (interpolate_waypoints j t) t = ⟨0, 0, 0⟩ := by
  have hmem := clampf_mem
    (x := loop_transform j.config.loop_mode t) (zero_le_one)
  rw [interpolate_two_eval j ⟨0, 0, 0⟩ ⟨0, 0, 0⟩ hw hcnt t _ rfl hmem.1 hmem.2,
    apply_dynamics_neutral j hl hch]
  have hz : clampf (0 : ℝ) 0 1 = 0 := clampf_eq_self le_rfl zero_le_one
  simp only [lerpf, hueBlend_zero]
  norm_num [hz]
  rw [show clampf (0 : ℝ) 0 (2 / 5) = 0 from clampf_eq_self le_rfl (by norm_num)]

/-- The variation layer with lightness-only dimensions and SUBTLE
strength at `t = 0`: one draw from the raw journey seed, applied to
lightness. -/
theorem apply_variation_L_only (j : CJ_Journey_Impl)
    (hv : j.config.variation_enabled = true)
    (hdim : j.config.variation_dimensions = 2)
    (hstr : j.config.variation_strength = .subtle) (c : CJ_LCh) :
    apply_variation j c 0 =
      CJ_LCh.mk
        (clampf (c.L +
          ((((xoshiro_result j.rng_state % 2 ^ 24 : ℕ)) : ℝ) / 16777216 - 0.5) * 0.02)
          0 1) c.C c.h := by
  have hseed : Nat.xor j.rng_state ((rtrunc ((0 : ℝ) * 1000000)).toNat % 2 ^ 64)
      = j.rng_state := by
    rw [zero_mul, rtrunc_eq_zero le_rfl one_pos]
    exact Nat.xor_zero j.rng_state
  unfold apply_variation
  rw [hv]
  rw [if_neg (by decide : ¬ (true = false))]
  simp only [hdim, hstr, hseed, xoshiro_float]
  rw [if_neg (by decide : ¬ (CJ_VariationStrength.subtle = .noticeable)),
    if_neg (by decide : ¬ (CJ_VariationStrength.subtle = .custom))]
  rw [if_neg (by decide : ¬ (Nat.land 2 1 ≠ 0)),
    if_pos (by decide : Nat.land 2 2 ≠ 0),
    if_neg (by decide : ¬ (Nat.land 2 4 ≠ 0))]

theorem sample_jSeedZero_zero : cj_journey_sample jSeedZero 0 = ⟨0, 0, 0⟩ := by
  unfold cj_journey_sample
  rw [dynamics_interp_black jSeedZero (by rw [jSeedZero_eq]) (by rw [jSeedZero_eq])
    (by rw [jSeedZero_eq]; rfl) (by rw [jSeedZero_eq]; rfl)]
  rw [apply_variation_L_only jSeedZero (by rw [jSeedZero_eq]; rfl)
    (by rw [jSeedZero_eq]; rfl) (by rw [jSeedZero_eq]; rfl)]
  rw [show jSeedZero.rng_state = 0 by rw [jSeedZero_eq]]
  rw [show (xoshiro_result 0 % 2 ^ 24 : ℕ) = 0 from by decide]
  simp only [Nat.cast_zero, zero_div,
    show ((⟨0, 0, 0⟩ : CJ_LCh)).L = 0 from rfl,
    show ((⟨0, 0, 0⟩ : CJ_LCh)).C = 0 from rfl,
    show ((⟨0, 0, 0⟩ : CJ_LCh)).h = 0 from rfl]
  rw [show (0 : ℝ) + ((0 : ℝ) - 0.5) * 0.02 = -0.01 by norm_num]
  rw [clampf_of_lt (by norm_num : (-0.01 : ℝ) < 0)]
  rw [lch_to_oklab_hue_zero, oklab_to_rgb_gray]
  unfold cj_rgb_clamp
  norm_num [clampf_eq_self le_rfl zero_le_one]

theorem sample_jSeedDefault_zero :
    cj_journey_sample jSeedDefault 0 =
      ⟨7419240 / 838860800 * (7419240 / 838860800) * (7419240 / 838860800),
        7419240 / 838860800 * (7419240 / 838860800) * (7419240 / 838860800),
        7419240 / 838860800 * (7419240 / 838860800) * (7419240 / 838860800)⟩ := by
  unfold cj_journey_sample
  rw [dynamics_interp_black jSeedDefault (by rw [jSeedDefault_eq])
    (by rw [jSeedDefault_eq]) (by rw [jSeedDefault_eq]; rfl)
    (by rw [jSeedDefault_eq]; rfl)]
  rw [apply_variation_L_only jSeedDefault (by rw [jSeedDefault_eq]; rfl)
    (by rw [jSeedDefault_eq]; rfl) (by rw [jSeedDefault_eq]; rfl)]
  rw [show jSeedDefault.rng_state = 0x123456789ABCDEF0 by rw [jSeedDefault_eq]]
  rw [show (xoshiro_result 0x123456789ABCDEF0 % 2 ^ 24 : ℕ) = 15807848 from by decide]
  simp only [show ((⟨0, 0, 0⟩ : CJ_LCh)).L = 0 from rfl,
    show ((⟨0, 0, 0⟩ : CJ_LCh)).C = 0 from rfl,
    show ((⟨0, 0, 0⟩ : CJ_LCh)).h = 0 from rfl]
  rw [show (0 : ℝ) + (((15807848 : ℕ) : ℝ) / 16777216 - 0.5) * 0.02
      = 7419240 / 838860800 by push_cast; norm_num]
  rw [clampf_eq_self (by norm_num) (by norm_num)]
  rw [lch_to_oklab_hue_zero, oklab_to_rgb_gray]
  unfold cj_rgb_clamp
  rw [clampf_eq_self (by norm_num) (by norm_num)]

theorem jSeedClosed_eq :
    jSeedClosed = { config := cfgSeedClosed
                    anchor_lch := [⟨0, 0, 0⟩, ⟨0, 0, 0⟩]
                    anchor_count := 2
                    waypoints := [⟨⟨0, 0, 0⟩, 1⟩, ⟨⟨0, 0, 0⟩, 1⟩]
                    waypoint_count := 2
                    rng_state := 0x123456789ABCDEF0 } := by
  unfold jSeedClosed
  rw [mkJourney_two cfgSeedClosed ⟨0, 0, 0⟩ ⟨0, 0, 0⟩ rfl rfl rfl, black_lch]
  rfl

/-- The variation layer with lightness-only dimensions and CUSTOM
strength: one draw from the position-keyed local state, scaled by the
configured magnitude and applied to lightness. -/
theorem apply_variation_custom_key (j : CJ_Journey_Impl)
    (hv : j.config.variation_enabled = true)
    (hdim : j.config.variation_dimensions = 2)
    (hstr : j.config.variation_strength = .custom) (c : CJ_LCh) (t : ℝ)
    (key : ℕ)
    (hkey : Nat.xor j.rng_state ((rtrunc (t * 1000000)).toNat % 2 ^ 64) = key) :
    apply_variation j c t =
      CJ_LCh.mk
        (clampf (c.L +
          ((((xoshiro_result key % 2 ^ 24 : ℕ)) : ℝ) / 16777216 - 0.5) *
            j.config.variation_custom_magnitude) 0 1) c.C c.h := by
  unfold apply_variation
  rw [hv]
  rw [if_neg (by decide : ¬ (true = false))]
  simp only [hdim, hstr, hkey, xoshiro_float]
  rw [if_pos (trivial : True)]
  rw [if_neg (by decide : ¬ (Nat.land 2 1 ≠ 0)),
    if_pos (by decide : Nat.land 2 2 ≠ 0),
    if_neg (by decide : ¬ (Nat.land 2 4 ≠ 0))]
  rw [if_neg (by decide :
    ¬ (CJ_VariationStrength.custom = CJ_VariationStrength.noticeable))]

theorem sample_jSeedClosed_zero :
    cj_journey_sample jSeedClosed 0 =
      ⟨7419240 / 16777216 * (7419240 / 16777216) * (7419240 / 16777216),
        7419240 / 16777216 * (7419240 / 16777216) * (7419240 / 16777216),
        7419240 / 16777216 * (7419240 / 16777216) * (7419240 / 16777216)⟩ := by
  unfold cj_journey_sample
  rw [dynamics_interp_black jSeedClosed (by rw [jSeedClosed_eq])
    (by rw [jSeedClosed_eq]) (by rw [jSeedClosed_eq]; rfl)
    (by rw [jSeedClosed_eq]; rfl)]
  rw [apply_variation_custom_key jSeedClosed (by rw [jSeedClosed_eq]; rfl)
    (by rw [jSeedClosed_eq]; rfl) (by rw [jSeedClosed_eq]; rfl) _ 0
    0x123456789ABCDEF0
    (by
      rw [show jSeedClosed.rng_state = 0x123456789ABCDEF0 by rw [jSeedClosed_eq]]
      rw [show ((rtrunc ((0 : ℝ) * 1000000)).toNat % 2 ^ 64) = 0 by
        rw [zero_mul, rtrunc_eq_zero le_rfl one_pos]
        rfl]
      exact Nat.xor_zero _)]
  rw [show jSeedClosed.config.variation_custom_magnitude = 1 from by
    rw [jSeedClosed_eq]
    rfl]
  rw [show (xoshiro_result 0x123456789ABCDEF0 % 2 ^ 24 : ℕ) = 15807848 from by
    decide]
  simp only [show ((⟨0, 0, 0⟩ : CJ_LCh)).L = 0 from rfl,
    show ((⟨0, 0, 0⟩ : CJ_LCh)).C = 0 from rfl,
    show ((⟨0, 0, 0⟩ : CJ_LCh)).h = 0 from rfl]
  rw [show (0 : ℝ) + (((15807848 : ℕ) : ℝ) / 16777216 - 0.5) * 1
      = 7419240 / 16777216 by push_cast; norm_num]
  rw [clampf_eq_self (by norm_num) (by norm_num)]
  rw [lch_to_oklab_hue_zero, oklab_to_rgb_gray]
  unfold cj_rgb_clamp
  rw [clampf_eq_self (by norm_num) (by norm_num)]

theorem sample_jSeedClosed_one :
    cj_journey_sample jSeedClosed 1 =
      ⟨6812456 / 16777216 * (6812456 / 16777216) * (6812456 / 16777216),
        6812456 / 16777216 * (6812456 / 16777216) * (6812456 / 16777216),
        6812456 / 16777216 * (6812456 / 16777216) * (6812456 / 16777216)⟩ := by
  unfold cj_journey_sample
  rw [dynamics_interp_black jSeedClosed (by rw [jSeedClosed_eq])
    (by rw [jSeedClosed_eq]) (by rw [jSeedClosed_eq]; rfl)
    (by rw [jSeedClosed_eq]; rfl)]
  rw [apply_variation_custom_key jSeedClosed (by rw [jSeedClosed_eq]; rfl)
    (by rw [jSeedClosed_eq]; rfl) (by rw [jSeedClosed_eq]; rfl) _ 1
    0x123456789AB39CB0
    (by
      rw [show jSeedClosed.rng_state = 0x123456789ABCDEF0 by rw [jSeedClosed_eq]]
      rw [show ((rtrunc ((1 : ℝ) * 1000000)).toNat % 2 ^ 64) = 1000000 by
        rw [show (1 : ℝ) * 1000000 = ((1000000 : ℤ) : ℝ) by norm_num,
          rtrunc_of_nonneg (by norm_num), Int.floor_intCast]
        decide]
      decide)]
  rw [show jSeedClosed.config.variation_custom_magnitude = 1 from by
    rw [jSeedClosed_eq]
    rfl]
  rw [show (xoshiro_result 0x123456789AB39CB0 % 2 ^ 24 : ℕ) = 15201064 from by
    decide]
  simp only [show ((⟨0, 0, 0⟩ : CJ_LCh)).L = 0 from rfl,
    show ((⟨0, 0, 0⟩ : CJ_LCh)).C = 0 from rfl,
    show ((⟨0, 0, 0⟩ : CJ_LCh)).h = 0 from rfl]
  rw [show (0 : ℝ) + (((15201064 : ℕ) : ℝ) / 16777216 - 0.5) * 1
      = 6812456 / 16777216 by push_cast; norm_num]
  rw [clampf_eq_self (by norm_num) (by norm_num)]
  rw [lch_to_oklab_hue_zero, oklab_to_rgb_gray]
  unfold cj_rgb_clamp
  rw [clampf_eq_self (by norm_num) (by norm_num)]

/-! ## Claim theorems -/

/-- C1: two journeys constructed from bit-identical configs are the
same value `mkJourney cfg`; running any sequence of sample/discrete
calls leaves the journey unchanged (no call mutates any field), every
call's output is the pure per-call function of the constructed journey
(independent of how many calls came before or in what order), and after
any two histories the next call produces identical output on both
journeys. -/
theorem claim_C1_determinism :
    ∀ (cfg : CJ_Config) (calls1 calls2 : List APICall) (c : APICall),
      (runTrace (mkJourney cfg) calls1).2 = mkJourney cfg ∧
      (runTrace (mkJourney cfg) calls1).1 =
        calls1.map (callOutput (mkJourney cfg)) ∧
      callOutput (runTrace (mkJourney cfg) calls1).2 c =
        callOutput (runTrace (mkJourney cfg) calls2).2 c := by
  intro cfg calls1 calls2 c
  rw [runTrace_pure, runTrace_pure]
  exact ⟨rfl, rfl, rfl⟩

/-- C2 counterexample: for the journey built from `cfgC2` (two anchors,
OPEN loop, MEDIUM contrast), `discreteAt 0` is black (fixed-spacing
position `fmod (0·0.05) 1 = 0`) while `discrete 1` returns the
midpoint sample (count-based position `0.5`), so
`discreteAt i ≠ discrete (i+1) !! i` already at `i = 0`. -/
theorem claim_C2_counterexample :
    cj_journey_discrete_at (some jC2) 0 ≠
      (cj_journey_discrete jC2 1).getD 0 ⟨0, 0, 0⟩ := by
  rw [discreteAt_jC2_zero, discrete_jC2_one]
  simp only [List.getD_cons_zero]
  intro h
  have hr : (0 : ℝ) = (cj_journey_sample jC2 0.5).r := congrArg CJ_RGB.r h
  obtain ⟨h1, _⟩ := sample_jC2_half_r_bounds
  linarith

/-- C2 amended: `discreteAt (j, i)` equals the `i`-th element of the
chained, contrast-enforced sequence derived from index 0 with the
fixed-spacing positions — equivalently element `i` of
`discreteRange (j, 0, i+1)` — rather than the last element of
`discrete (j, i+1)`, which uses count-based loop-aware positions. -/
theorem claim_C2_amended :
    ∀ (j : CJ_Journey_Impl) (i : ℕ) (buf : List CJ_RGB), i < buf.length →
      cj_journey_discrete_at (some j) (i : ℤ) =
        (cj_journey_discrete_range (some j) 0 ((i : ℤ) + 1) buf).getD i
          ⟨0, 0, 0⟩ := by
  intro j i buf hb
  have h := discrete_range_natCast j 0 (i + 1) i buf (by omega) (by omega)
  push_cast at h
  rw [Nat.zero_add] at h
  rw [discrete_at_natCast, h]

/-- Witness for C2 amended at a concrete journey, index and buffer. -/
theorem claim_C2_amended_witness :
    cj_journey_discrete_at (some jWitness) ((0 : ℕ) : ℤ) =
      (cj_journey_discrete_range (some jWitness) 0 (((0 : ℕ) : ℤ) + 1)
        [⟨0, 0, 0⟩]).getD 0 ⟨0, 0, 0⟩ :=
  claim_C2_amended jWitness 0 [⟨0, 0, 0⟩] (by norm_num)

/-- C3 counterexample: the default config has `anchor_count = 0`
(invalid per the claim), yet `cj_journey_create` constructs a journey
from it rather than failing. -/
theorem claim_C3_counterexample :
    cj_config_init.anchor_count = 0 ∧
      cj_journey_create true cj_config_init ≠ none := by
  refine ⟨rfl, ?_⟩
  simp [cj_journey_create]

/-- C3 amended: `cj_journey_create` fails (returns null) exactly on
allocation failure; it performs no validation of `anchor_count` — the
config, including an out-of-range `anchor_count`, is copied verbatim
into the journey (no silent clamping, but also no rejection). -/
theorem claim_C3_amended :
    ∀ (allocOk : Bool) (cfg : CJ_Config),
      (cj_journey_create allocOk cfg = none ↔ allocOk = false) ∧
      (∀ jj, cj_journey_create allocOk cfg = some jj →
        jj.config = cfg ∧ jj.anchor_count = cfg.anchor_count) := by
  intro allocOk cfg
  cases allocOk with
  | false => simp [cj_journey_create]
  | true =>
    constructor
    · simp [cj_journey_create]
    · intro jj h
      simp only [cj_journey_create, if_pos] at h
      rw [Option.some_inj] at h
      rw [← h]
      exact ⟨rfl, rfl⟩

/-- Witness for C3 amended at the default config. -/
theorem claim_C3_amended_witness :
    cj_journey_create true cj_config_init = some (mkJourney cj_config_init) ∧
    (mkJourney cj_config_init).config = cj_config_init ∧
    (mkJourney cj_config_init).anchor_count = cj_config_init.anchor_count :=
  ⟨rfl, (claim_C3_amended true cj_config_init).2 (mkJourney cj_config_init) rfl⟩

/-- C4 counterexample: the all-black MEDIUM-contrast journey's
`discrete 2` palette has consecutive ΔE below `0.10 − 0.001`: the
bounded 5-iteration enforcement stops at `L = 0.096875`, short of the
threshold. -/
theorem claim_C4_counterexample :
    jBlack.config.contrast_level = .medium ∧
    cj_delta_e
      (cj_rgb_to_oklab ((cj_journey_discrete jBlack 2).getD 0 ⟨0, 0, 0⟩))
      (cj_rgb_to_oklab ((cj_journey_discrete jBlack 2).getD 1 ⟨0, 0, 0⟩)) <
      0.1 - 0.001 := by
  refine ⟨rfl, ?_⟩
  rw [discrete_jBlack_two]
  simp only [List.getD_cons_zero, List.getD_cons_succ]
  rw [show (0.1 - 0.001 : ℝ) = 0.099 by norm_num]
  exact black_gray_dE_lt

/-- C4 amended: contrast enforcement is best-effort. Whenever the
bounded refinement loop reports that a threshold check succeeded, the
color it returns does meet the threshold in the engine's internal
OKLab values; and each palette element `i ≥ 1` of `discrete n`
(`n ≤ 20`, before the chroma pulse) is exactly the bounded enforcement
of the raw sample against element `i − 1`. The unconditional pairwise
`ΔE ≥ 0.10 − ε` bound of the original claim does not hold (the loop
may exhaust its 5 iterations short of the threshold, as the
counterexample shows). -/
theorem claim_C4_amended :
    (∀ (fuel k : ℕ) (curr prev : CJ_Lab) (δ : ℝ),
        (contrast_loop fuel k curr prev δ).2 = true →
        δ ≤ cj_delta_e (contrast_loop fuel k curr prev δ).1 prev) ∧
    (∀ (j : CJ_Journey_Impl) (n i : ℕ), 1 ≤ i → i < n → n ≤ 20 →
        (cj_journey_discrete j (n : ℤ)).getD i ⟨0, 0, 0⟩ =
          apply_minimum_contrast
            (cj_journey_sample j
              (discrete_position_with_loop_mode j (i : ℤ) (n : ℤ)))
            (some ((cj_journey_discrete j (n : ℤ)).getD (i - 1) ⟨0, 0, 0⟩))
            (discrete_min_delta_e j)) := by
  constructor
  · exact contrast_loop_break_sound
  · intro j n i h1 hin hn20
    unfold cj_journey_discrete
    rw [if_neg (by omega : ¬ (n : ℤ) ≤ 0), if_neg (by omega : ¬ (20 : ℤ) < (n : ℤ))]
    rw [Int.toNat_natCast]
    obtain ⟨m, rfl⟩ : ∃ m, i = m + 1 := ⟨i - 1, by omega⟩
    rw [discrete_build_getD j (discrete_min_delta_e j) (n : ℤ) ⟨0, 0, 0⟩ m n 0
      ⟨0, 0, 0⟩ (by omega)]
    rw [show ((0 + m + 1 : ℕ) : ℤ) = ((m + 1 : ℕ) : ℤ) by push_cast; ring]
    rw [Nat.add_sub_cancel]

/-- Witness for C4 amended: a loop run that breaks immediately, and the
chain equation at a concrete journey and palette position. -/
theorem claim_C4_amended_witness :
    (contrast_loop 1 0 ⟨1, 0, 0⟩ ⟨0, 0, 0⟩ 0.5).2 = true ∧
    0.5 ≤ cj_delta_e (contrast_loop 1 0 ⟨1, 0, 0⟩ ⟨0, 0, 0⟩ 0.5).1 ⟨0, 0, 0⟩ ∧
    (cj_journey_discrete jWitness ((2 : ℕ) : ℤ)).getD 1 ⟨0, 0, 0⟩ =
      apply_minimum_contrast
        (cj_journey_sample jWitness
          (discrete_position_with_loop_mode jWitness ((1 : ℕ) : ℤ) ((2 : ℕ) : ℤ)))
        (some ((cj_journey_discrete jWitness ((2 : ℕ) : ℤ)).getD (1 - 1) ⟨0, 0, 0⟩))
        (discrete_min_delta_e jWitness) := by
  have hd : cj_delta_e ⟨1, 0, 0⟩ ⟨0, 0, 0⟩ = 1 := by
    rw [cj_delta_e_L]
    norm_num
  have hbody : contrast_body ⟨0, 0, 0⟩ 0.5 ⟨1, 0, 0⟩ 0 = (⟨1, 0, 0⟩, true) := by
    unfold contrast_body
    rw [hd, if_pos (by norm_num : (0.5 : ℝ) ≤ 1)]
  have hflag : (contrast_loop 1 0 ⟨1, 0, 0⟩ ⟨0, 0, 0⟩ 0.5).2 = true := by
    simp [contrast_loop, hbody]
  exact ⟨hflag, claim_C4_amended.1 1 0 ⟨1, 0, 0⟩ ⟨0, 0, 0⟩ 0.5 hflag,
    claim_C4_amended.2 jWitness 2 1 le_rfl (by norm_num) (by norm_num)⟩

/-- C5 counterexample: both halves of the claim fail as stated, beyond
any numeric tolerance. For the CLOSED journey `jSeedClosed` (variation
enabled, magnitude 1, default seed) the palette does not return to its
start: the red channels of `sample 0` and `sample 1` differ by more
than 0.01, because `apply_variation` keys its local PRNG state with
`(uint64_t)(t * 1000000)` and so draws different offsets at `t = 0`
and `t = 1`. For the PINGPONG journey `jC5` (vibrancy 1) the red
channels of `sample 1.5` and `sample (2 − 1.5)` differ by more than
0.01: the vibrancy envelope peak uses the raw `t`, breaking the
documented mirror symmetry of the final color. -/
theorem claim_C5_counterexample :
    (jSeedClosed.config.loop_mode = .closed ∧
      jSeedClosed.config.variation_enabled = true ∧
      0.01 < |(cj_journey_sample jSeedClosed 0).r -
        (cj_journey_sample jSeedClosed 1).r|) ∧
    (jC5.config.loop_mode = .pingpong ∧ (1 : ℝ) < 1.5 ∧ (1.5 : ℝ) ≤ 2 ∧
      0.01 < |(cj_journey_sample jC5 1.5).r - (cj_journey_sample jC5 (2 - 1.5)).r|) := by
  constructor
  · refine ⟨rfl, rfl, ?_⟩
    rw [sample_jSeedClosed_zero, sample_jSeedClosed_one]
    have h : (0.01 : ℝ) <
        7419240 / 16777216 * (7419240 / 16777216) * (7419240 / 16777216) -
          6812456 / 16777216 * (6812456 / 16777216) * (6812456 / 16777216) := by
      norm_num
    exact lt_of_lt_of_le h (le_abs_self _)
  · refine ⟨rfl, by norm_num, by norm_num, ?_⟩
    rw [show (2 - 1.5 : ℝ) = 0.5 by norm_num]
    obtain ⟨ha1, ha2⟩ := sample_jC5_three_halves_r_bounds
    obtain ⟨hb1, hb2⟩ := sample_jC5_half_r_bounds
    calc (0.01 : ℝ)
        < (cj_journey_sample jC5 0.5).r - (cj_journey_sample jC5 1.5).r := by linarith
      _ ≤ |(cj_journey_sample jC5 0.5).r - (cj_journey_sample jC5 1.5).r| := le_abs_self _
      _ = |(cj_journey_sample jC5 1.5).r - (cj_journey_sample jC5 0.5).r| := abs_sub_comm _ _

/-- C5 amended: CLOSED journeys do return to the first anchor —
`sample 0 = sample 1` when variation is off, a hypothesis the
counterexample's closed variation journey shows is necessary — and in
PINGPONG mode the mirror symmetry `t ↦ 2 − t` on `(1, 2]` holds for
the waypoint interpolation stage; it is the later dynamics stage
(vibrancy envelope evaluated at the raw `t`) that breaks the symmetry
of the final sample, as the counterexample also shows. -/
theorem claim_C5_amended :
    (∀ j : CJ_Journey_Impl, j.config.loop_mode = .closed →
        j.config.variation_enabled = false →
        cj_journey_sample j 0 = cj_journey_sample j 1) ∧
    (∀ (j : CJ_Journey_Impl) (t : ℝ), j.config.loop_mode = .pingpong →
        1 < t → t ≤ 2 →
        interpolate_waypoints j t = interpolate_waypoints j (2 - t)) :=
  ⟨fun j hc hv => sample_closed_boundary j hc hv,
   fun j t hp h1 h2 => interpolate_pingpong_mirror j hp h1 h2⟩

/-- Witness for C5 amended at concrete closed and pingpong journeys. -/
theorem claim_C5_amended_witness :
    cj_journey_sample jWitnessClosed 0 = cj_journey_sample jWitnessClosed 1 ∧
    interpolate_waypoints jWitnessPingpong 1.5 =
      interpolate_waypoints jWitnessPingpong (2 - 1.5) :=
  ⟨claim_C5_amended.1 jWitnessClosed rfl rfl,
   claim_C5_amended.2 jWitnessPingpong 1.5 rfl (by norm_num) (by norm_num)⟩

/-- C6 counterexample: at hues `a = π`, `b = 0` the raw difference is
`−π`; the code's wrap keeps `−π` (its range is `[−π, π)` on this side)
while the spec's interval `(−π, π]` demands `+π`, so the half-way
blended hues differ: `π/2` from the code versus `3π/2` from the
spec's words. -/
theorem claim_C6_counterexample :
    hueBlend π 0 (1 / 2) ≠ hueBlendSpec π 0 (1 / 2) := by
  have hpi := Real.pi_pos
  have hcode : hueBlend π 0 (1 / 2) = π / 2 := by
    unfold hueBlend
    rw [hue_wrap_code_neg_pi]
    rw [show π + -π * (1 / 2) = π / 2 by ring]
    exact normHue_eq_self (by linarith) (by linarith)
  have hspec : hueBlendSpec π 0 (1 / 2) = 3 * π / 2 := by
    unfold hueBlendSpec
    rw [hue_wrap_spec_neg_pi]
    rw [show π + π * (1 / 2) = 3 * π / 2 by ring]
    exact normHue_eq_self (by linarith) (by linarith)
  rw [hcode, hspec]
  intro h
  linarith

/-- C6 amended: hue interpolation does take the shortest path — the
wrapped difference is congruent to `b − a` modulo `2π` and has
magnitude at most `π` (lands in `[−π, π]`, with the boundary resolved
to `−π`, not `+π` as the spec's half-open interval `(−π, π]` states) —
and the blended hue is always normalised into `[0, 2π)`. In
particular the wrap of the `6.2 → 0.2` example is short
(`|wrap| ≈ 0.283 ≤ 0.4`), not the long way round. -/
theorem claim_C6_amended :
    (∀ a b : ℝ, 0 ≤ a → a < 2 * π → 0 ≤ b → b < 2 * π →
        |hue_wrap_code (b - a)| ≤ π ∧
        (∃ k : ℤ, hue_wrap_code (b - a) = (b - a) + 2 * π * k) ∧
        ∀ lt : ℝ, 0 ≤ hueBlend a b lt ∧ hueBlend a b lt < 2 * π) ∧
    |hue_wrap_code (0.2 - 6.2)| ≤ 0.4 := by
  constructor
  · intro a b ha0 ha1 hb0 hb1
    obtain ⟨h1, h2⟩ := hue_wrap_code_shortest ha0 ha1 hb0 hb1
    exact ⟨h1, h2, fun lt => normHue_mem _⟩
  · exact hue_wrap_code_62_02.2

/-- Witness for C6 amended at hues 1 and 2. -/
theorem claim_C6_amended_witness :
    |hue_wrap_code ((2 : ℝ) - 1)| ≤ π :=
  (claim_C6_amended.1 1 2 (by norm_num)
    (by nlinarith [Real.pi_gt_three]) (by norm_num)
    (by nlinarith [Real.pi_gt_three])).1

/-- C7: for any in-range request, element `k` of
`discreteRange (j, s, c)` equals `discreteAt (j, s + k)` — the two
discrete accessors are consistent. -/
theorem claim_C7_range_at_consistency :
    ∀ (j : CJ_Journey_Impl) (s c k : ℕ) (buf : List CJ_RGB),
      k < c → c ≤ buf.length →
      (cj_journey_discrete_range (some j) (s : ℤ) (c : ℤ) buf).getD k ⟨0, 0, 0⟩ =
        cj_journey_discrete_at (some j) ((s : ℤ) + (k : ℤ)) := by
  intro j s c k buf hk hb
  rw [discrete_range_natCast j s c k buf hk hb]
  rw [show ((s : ℤ) + (k : ℤ)) = ((s + k : ℕ) : ℤ) by push_cast; ring]
  rw [discrete_at_natCast]

/-- Witness for C7 at a concrete journey, start 0, count 1, index 0. -/
theorem claim_C7_witness :
    (cj_journey_discrete_range (some jWitness) ((0 : ℕ) : ℤ) ((1 : ℕ) : ℤ)
        [⟨0, 0, 0⟩]).getD 0 ⟨0, 0, 0⟩ =
      cj_journey_discrete_at (some jWitness) (((0 : ℕ) : ℤ) + ((0 : ℕ) : ℤ)) :=
  claim_C7_range_at_consistency jWitness 0 1 0 [⟨0, 0, 0⟩] (by norm_num) (by norm_num)

/-- C8: the discrete accessors degrade safely — a negative index or a
null journey makes `discreteAt` return opaque black `(0,0,0)`, and a
negative start, non-positive count or null journey makes
`discreteRange` leave the buffer untouched. -/
theorem claim_C8_safe_degrade :
    ∀ (journey : Option CJ_Journey_Impl) (i : ℤ),
      ((i < 0 ∨ journey = none) →
        cj_journey_discrete_at journey i = ⟨0, 0, 0⟩) ∧
      (∀ (s c : ℤ) (buf : List CJ_RGB), (s < 0 ∨ c ≤ 0 ∨ journey = none) →
        cj_journey_discrete_range journey s c buf = buf) := by
  intro journey i
  constructor
  · intro h
    cases journey with
    | none => rfl
    | some j =>
      rcases h with hi | hn
      · simp only [cj_journey_discrete_at]
        rw [if_pos hi]
      · exact absurd hn (by simp)
  · intro s c buf h
    cases journey with
    | none => rfl
    | some j =>
      rcases h with hs | hc | hn
      · simp only [cj_journey_discrete_range]
        rw [if_pos (Or.inr hs)]
      · simp only [cj_journey_discrete_range]
        rw [if_pos (Or.inl hc)]
      · exact absurd hn (by simp)

/-- Witness for C8: null journey, negative index, negative start. -/
theorem claim_C8_witness :
    cj_journey_discrete_at none 5 = ⟨0, 0, 0⟩ ∧
    cj_journey_discrete_at (some jWitness) (-1) = ⟨0, 0, 0⟩ ∧
    cj_journey_discrete_range (some jWitness) (-1) 3 [⟨1, 1, 1⟩] = [⟨1, 1, 1⟩] :=
  ⟨(claim_C8_safe_degrade none 5).1 (Or.inr rfl),
   (claim_C8_safe_degrade (some jWitness) (-1)).1 (Or.inl (by norm_num)),
   (claim_C8_safe_degrade (some jWitness) 0).2 (-1) 3 [⟨1, 1, 1⟩]
     (Or.inl (by norm_num))⟩

/-- C9 (code bug): with variation enabled and `variation_seed = 0` the
constructor stores raw state 0 — it is NOT replaced by the documented
default deterministic seed `0x123456789ABCDEF0` — and the resulting
journey provably produces different colors than one created with the
default seed, contradicting the header's "If 0, uses default
deterministic seed (0x123456789ABCDEF0)". -/
theorem claim_C9_seed_zero_bug :
    cfgSeedZero.variation_seed = 0 ∧
    (mkJourney cfgSeedZero).rng_state = 0 ∧
    (mkJourney cfgSeedDefault).rng_state = 0x123456789ABCDEF0 ∧
    cj_journey_sample (mkJourney cfgSeedZero) 0 ≠
      cj_journey_sample (mkJourney cfgSeedDefault) 0 := by
  refine ⟨rfl, rfl, rfl, ?_⟩
  show cj_journey_sample jSeedZero 0 ≠ cj_journey_sample jSeedDefault 0
  rw [sample_jSeedZero_zero, sample_jSeedDefault_zero]
  intro h
  have hr : (0 : ℝ) =
      7419240 / 838860800 * (7419240 / 838860800) * (7419240 / 838860800) :=
    congrArg CJ_RGB.r h
  norm_num at hr

/-- C10: `cj_journey_sample` ends in an unconditional clamp, so every
component of every sampled color lies in `[0, 1]` for every journey
and every `t`, in-range or not. -/
theorem claim_C10_gamut :
    ∀ (j : CJ_Journey_Impl) (t : ℝ),
      0 ≤ (cj_journey_sample j t).r ∧ (cj_journey_sample j t).r ≤ 1 ∧
      0 ≤ (cj_journey_sample j t).g ∧ (cj_journey_sample j t).g ≤ 1 ∧
      0 ≤ (cj_journey_sample j t).b ∧ (cj_journey_sample j t).b ≤ 1 := by
  intro j t
  unfold cj_journey_sample cj_rgb_clamp
  exact ⟨(clampf_mem zero_le_one).1, (clampf_mem zero_le_one).2,
    (clampf_mem zero_le_one).1, (clampf_mem zero_le_one).2,
    (clampf_mem zero_le_one).1, (clampf_mem zero_le_one).2⟩

end

end ColorJourney
